import Mathlib

/-!
# Distributed query fan-out planner: `DB::ClusterProxy::Query::execute`

A shallow embedding of `dbms/src/Interpreters/ClusterProxy/Query.cpp`.  (The embedding of two
functions of `KQLDateTimeFunctions.cpp` follows the definitions of the planner, under its own
heading.)

* Handles (`ASTPtr`, `ConnectionPoolPtr`, `Cluster::Address`) are natural numbers: the planner
  only stores and forwards them.
* `size_t` values are natural numbers.  Every counter of `execute` is bounded by the number of
  shards or by the total number of local addresses, both of which are sizes of in-memory vectors,
  so no counter can wrap.
* The stream constructor (`IQueryConstructor`) is a collaborator with its own mutable state: its
  methods take and return a state of type `σ`; the streams it produces have type `β`.
* Every call of `setupBarrier`, `createLocal` and `createRemote` that `execute` makes on the
  stream constructor is appended, with its arguments and its result, to a ghost list `calls`, so
  that statements about which calls happen, and in which order, can be written down.
-/

namespace DB
namespace ClusterProxy

/-! ## Data model -/

/-- Handle of `Cluster::Address`. -/
abbrev Address := Nat

/-- Handle of `ConnectionPoolPtr`: the identity of one connection pool. -/
abbrev ConnectionPoolPtr := Nat

/-- Contents of `ConnectionPools`, a vector of connection pools. -/
abbrev ConnectionPools := List ConnectionPoolPtr

/-- Pointer `ConnectionPoolsPtr`: `none` is the null pointer. -/
abbrev ConnectionPoolsPtr := Option ConnectionPools

/-- Handle of `ASTPtr`. -/
abbrev ASTPtr := Nat

/-- Fields of `settings.limits` read by `execute`. -/
structure Limits where
  max_execution_time : Nat
  max_network_bandwidth : Nat
  max_network_bytes : Nat
deriving DecidableEq, Repr

/-- Fields of `Settings` read or written by `execute`; `other` stands for all remaining fields. -/
structure Settings where
  queue_max_wait_ms : Nat
  max_concurrent_queries_for_user : Nat
  max_distributed_processing_threads : Nat
  limits : Limits
  other : Nat
deriving DecidableEq, Repr

/-- Arguments of the `Throttler` constructor. -/
structure Throttler where
  max_speed : Nat
  limit : Nat
  limit_exceeded_exception_message : String
deriving DecidableEq, Repr

/-- Pointer `ThrottlerPtr`: `none` is the empty pointer. -/
abbrev ThrottlerPtr := Option Throttler

/-- Type `Context`: its settings, and `other` for everything else it holds. -/
structure Context where
  settings : Settings
  other : Nat
deriving DecidableEq, Repr

/-- Method `Context::setSettings`. -/
def Context.setSettings (context : Context) (settings : Settings) : Context :=
  { context with settings := settings }

/-- Type `Cluster::ShardInfo` as `execute` sees it: the results of `isLocal()` and
`hasRemoteConnections()` (whose bodies are not in `Query.cpp` and are therefore
independent fields), the local addresses and the connection pool. -/
structure ShardInfo where
  isLocal : Bool
  hasRemoteConnections : Bool
  local_addresses : List Address
  pool : ConnectionPoolPtr
deriving DecidableEq, Repr

/-- Type `Cluster` as `execute` sees it: `getShardsInfo()` and `getRemoteShardCount()`.  The
latter is not computed in `Query.cpp`, so it is an independent field. -/
structure Cluster where
  getShardsInfo : List ShardInfo
  getRemoteShardCount : Nat
deriving DecidableEq, Repr

/-- Functions called by `execute` whose bodies are not in `Query.cpp`: `queryToString` and
the static `Cluster::saturate`.  They are parameters of the model. -/
structure Externals where
  queryToString : ASTPtr → String
  saturate : Nat → Nat → Nat

/-- Interface `IQueryConstructor`, with collaborator state `σ` and stream type `β`.
`isInclusive()` is a flag that has the same value at every call within one `execute`.
`createLocal` may return a null stream (`none`).  The two overloads of `createRemote` are
`createRemote` (one pool) and `createRemotePools` (a `ConnectionPoolsPtr`). -/
structure IQueryConstructor (σ β : Type) where
  isInclusive : Bool
  setupBarrier : Nat → σ → σ
  createLocal : ASTPtr → Context → Address → σ → Option β × σ
  createRemote : ConnectionPoolPtr → String → Settings → ThrottlerPtr → Context → σ → β × σ
  createRemotePools : ConnectionPoolsPtr → String → Settings → ThrottlerPtr → Context → σ → β × σ

/-- One call made on the stream constructor, with its arguments and its result. -/
inductive Call (β : Type) where
  | setupBarrier (shard_count : Nat)
  | createLocal (query_ast : ASTPtr) (context : Context) (address : Address) (ret : Option β)
  | createRemote (pool : ConnectionPoolPtr) (query : String) (settings : Settings)
      (throttler : ThrottlerPtr) (context : Context) (ret : β)
  | createRemotePools (pools : ConnectionPoolsPtr) (query : String) (settings : Settings)
      (throttler : ThrottlerPtr) (context : Context) (ret : β)
deriving DecidableEq, Repr

/-- Members of class `Query`, set by its constructor. -/
structure Query (σ β : Type) where
  query_constructor : IQueryConstructor σ β
  cluster : Cluster
  query_ast : ASTPtr
  context : Context
  settings : Settings
  enable_shard_multiplexing : Bool

/-! ## Settings, throttler and sizing (lines 27-69) -/

/-- Local `query` (line 27). -/
def Query.query {σ β : Type} (ext : Externals) (q : Query σ β) : String :=
  ext.queryToString q.query_ast

/-- Local `new_settings` (lines 29-32). -/
def Query.new_settings {σ β : Type} (ext : Externals) (q : Query σ β) : Settings :=
  { q.settings with
    queue_max_wait_ms := ext.saturate q.settings.queue_max_wait_ms q.settings.limits.max_execution_time
    max_concurrent_queries_for_user := 0 }

/-- Local `throttler` (lines 35-40). -/
def Query.throttler {σ β : Type} (q : Query σ β) : ThrottlerPtr :=
  if q.settings.limits.max_network_bandwidth ≠ 0 ∨ q.settings.limits.max_network_bytes ≠ 0 then
    some ⟨q.settings.limits.max_network_bandwidth, q.settings.limits.max_network_bytes,
      "Limit for bytes to send or receive over network exceeded."⟩
  else
    none

/-- Value of `create_remote_queries` for one shard (lines 81 and 125). -/
def create_remote_queries (is_inclusive : Bool) (shard_info : ShardInfo) : Bool :=
  if is_inclusive then shard_info.hasRemoteConnections else !shard_info.isLocal

/-- Local `remote_count` (lines 44-55). -/
def remote_count (is_inclusive : Bool) (cluster : Cluster) : Nat :=
  if is_inclusive then
    cluster.getShardsInfo.foldl
      (fun remote_count shard_info =>
        if shard_info.hasRemoteConnections then remote_count + 1 else remote_count) 0
  else
    cluster.getRemoteShardCount

/-- Local `thread_count` (lines 57-66). -/
def thread_count (enable_shard_multiplexing : Bool) (remote_count : Nat)
    (max_distributed_processing_threads : Nat) : Nat :=
  if !enable_shard_multiplexing then remote_count
  else if remote_count = 0 then 0
  else if max_distributed_processing_threads = 0 then 1
  else min remote_count max_distributed_processing_threads

/-- Local `pools_per_thread` (line 68). -/
def pools_per_thread (remote_count thread_count : Nat) : Nat :=
  if thread_count > 0 then remote_count / thread_count else 0

/-- Local `remainder` (line 69). -/
def remainder (remote_count thread_count : Nat) : Nat :=
  if thread_count > 0 then remote_count % thread_count else 0

/-- Local `actual_pools_per_thread` (lines 88-89 and 144-145). -/
def actual_pools_per_thread (pools_per_thread remainder current_thread : Nat) : Nat :=
  let excess := if current_thread < remainder then 1 else 0
  pools_per_thread + excess

/-! ## Pass 1: computing the number of parallel streams (lines 71-113) -/

/-- Loop variables of the first loop. -/
structure Pass1State where
  stream_count : Nat
  pool_count : Nat
  current_thread : Nat
  do_init : Bool
deriving DecidableEq, Repr

/-- Values of the loop variables before the first loop (lines 71-76). -/
def Pass1State.initial : Pass1State :=
  { stream_count := 0, pool_count := 0, current_thread := 0, do_init := true }

/-- Body of the first loop (lines 80-112). -/
def pass1Step (is_inclusive : Bool) (pools_per_thread remainder : Nat)
    (st : Pass1State) (shard_info : ShardInfo) : Pass1State :=
  let create_local_queries := shard_info.isLocal
  let create_remote_queries :=
    if is_inclusive then shard_info.hasRemoteConnections else !create_local_queries
  let st :=
    if create_local_queries then
      { st with stream_count := st.stream_count + shard_info.local_addresses.length }
    else st
  if create_remote_queries then
    let excess := if st.current_thread < remainder then 1 else 0
    let actual_pools_per_thread := pools_per_thread + excess
    if actual_pools_per_thread = 1 then
      { st with stream_count := st.stream_count + 1, current_thread := st.current_thread + 1 }
    else
      let st := if st.do_init then { st with pool_count := 0, do_init := false } else st
      let st := { st with pool_count := st.pool_count + 1 }
      if st.pool_count = actual_pools_per_thread then
        { st with stream_count := st.stream_count + 1, do_init := true,
                  current_thread := st.current_thread + 1 }
      else st
  else st

/-- First loop over the shards (lines 78-113). -/
def pass1 (is_inclusive : Bool) (pools_per_thread remainder : Nat)
    (shards : List ShardInfo) : Pass1State :=
  shards.foldl (pass1Step is_inclusive pools_per_thread remainder) Pass1State.initial

/-! ## Pass 2: creating the streams (lines 117-169) -/

/-- Loop variables of the second loop, the result under construction, the state of the stream
constructor and the ghost list of the calls made on it so far. -/
structure Pass2State (σ β : Type) where
  qc : σ
  calls : List (Call β)
  res : List β
  pools : ConnectionPoolsPtr
  do_init : Bool
  current_thread : Nat

/-- Values before the second loop (lines 25 and 118-120), given the state of the stream
constructor and the calls made so far. -/
def Pass2State.initial {σ β : Type} (qc : σ) (calls : List (Call β)) : Pass2State σ β :=
  { qc := qc, calls := calls, res := [], pools := none, do_init := true, current_thread := 0 }

/-- One iteration of the loop over `shard_info.local_addresses` (lines 136-138). -/
def Query.createLocalStep {σ β : Type} (q : Query σ β) (new_context : Context)
    (st : Pass2State σ β) (address : Address) : Pass2State σ β :=
  let r := q.query_constructor.createLocal q.query_ast new_context address st.qc
  let st := { st with qc := r.2,
                      calls := st.calls ++ [Call.createLocal q.query_ast new_context address r.1] }
  match r.1 with
  | some stream => { st with res := st.res ++ [stream] }
  | none => st

/-- Local contribution of one shard in the second loop (lines 127-140). -/
def Query.localContribution {σ β : Type} (ext : Externals) (q : Query σ β)
    (st : Pass2State σ β) (shard_info : ShardInfo) : Pass2State σ β :=
  let create_local_queries := shard_info.isLocal
  if create_local_queries then
    let new_context := q.context.setSettings (q.new_settings ext)
    shard_info.local_addresses.foldl (q.createLocalStep new_context) st
  else st

/-- Remote contribution of one shard in the second loop (lines 142-168).  After a pool group
has been handed to `createRemote`, `do_init` is true, so the next `push_back` happens on a fresh
`ConnectionPools` object: a group that was handed over is never modified afterwards. -/
def Query.remoteContribution {σ β : Type} (ext : Externals) (q : Query σ β)
    (pools_per_thread remainder : Nat)
    (st : Pass2State σ β) (shard_info : ShardInfo) : Pass2State σ β :=
  let create_local_queries := shard_info.isLocal
  let create_remote_queries :=
    if q.query_constructor.isInclusive then shard_info.hasRemoteConnections
    else !create_local_queries
  if create_remote_queries then
    let excess := if st.current_thread < remainder then 1 else 0
    let actual_pools_per_thread := pools_per_thread + excess
    if actual_pools_per_thread = 1 then
      let r := q.query_constructor.createRemote shard_info.pool (q.query ext)
        (q.new_settings ext) q.throttler q.context st.qc
      { st with qc := r.2,
                calls := st.calls ++ [Call.createRemote shard_info.pool (q.query ext)
                  (q.new_settings ext) q.throttler q.context r.1],
                res := st.res ++ [r.1],
                current_thread := st.current_thread + 1 }
    else
      let st := if st.do_init then { st with pools := some [], do_init := false } else st
      let st := { st with pools := st.pools.map (fun pools => pools ++ [shard_info.pool]) }
      if st.pools.map List.length = some actual_pools_per_thread then
        let r := q.query_constructor.createRemotePools st.pools (q.query ext)
          (q.new_settings ext) q.throttler q.context st.qc
        { st with qc := r.2,
                  calls := st.calls ++ [Call.createRemotePools st.pools (q.query ext)
                    (q.new_settings ext) q.throttler q.context r.1],
                  res := st.res ++ [r.1],
                  do_init := true,
                  current_thread := st.current_thread + 1 }
      else st
  else st

/-- Body of the second loop (lines 124-168). -/
def Query.pass2Step {σ β : Type} (ext : Externals) (q : Query σ β)
    (pools_per_thread remainder : Nat)
    (st : Pass2State σ β) (shard_info : ShardInfo) : Pass2State σ β :=
  q.remoteContribution ext pools_per_thread remainder (q.localContribution ext st shard_info)
    shard_info

/-- Second loop over the shards (lines 122-169), started from `st`. -/
def Query.pass2 {σ β : Type} (ext : Externals) (q : Query σ β)
    (pools_per_thread remainder : Nat)
    (st : Pass2State σ β) (shards : List ShardInfo) : Pass2State σ β :=
  shards.foldl (q.pass2Step ext pools_per_thread remainder) st

/-! ## `Query::execute` -/

/-- Value of `remote_count` in `execute`. -/
def Query.remote_count {σ β : Type} (q : Query σ β) : Nat :=
  ClusterProxy.remote_count q.query_constructor.isInclusive q.cluster

/-- Value of `thread_count` in `execute`. -/
def Query.thread_count {σ β : Type} (q : Query σ β) : Nat :=
  ClusterProxy.thread_count q.enable_shard_multiplexing q.remote_count
    q.settings.max_distributed_processing_threads

/-- Value of `pools_per_thread` in `execute`. -/
def Query.pools_per_thread {σ β : Type} (q : Query σ β) : Nat :=
  ClusterProxy.pools_per_thread q.remote_count q.thread_count

/-- Value of `remainder` in `execute`. -/
def Query.remainder {σ β : Type} (q : Query σ β) : Nat :=
  ClusterProxy.remainder q.remote_count q.thread_count

/-- Value of `stream_count` after the first loop of `execute`: the argument of
`setupBarrier` (line 115). -/
def Query.stream_count {σ β : Type} (q : Query σ β) : Nat :=
  (pass1 q.query_constructor.isInclusive q.pools_per_thread q.remainder
    q.cluster.getShardsInfo).stream_count

/-- State at the `return` of `execute` (line 171), when the stream constructor starts in state
`qc`: the first loop, the call of `setupBarrier`, then the second loop. -/
def Query.executeState {σ β : Type} (ext : Externals) (q : Query σ β) (qc : σ) :
    Pass2State σ β :=
  let stream_count := q.stream_count
  let qc := q.query_constructor.setupBarrier stream_count qc
  q.pass2 ext q.pools_per_thread q.remainder
    (Pass2State.initial qc [Call.setupBarrier stream_count]) q.cluster.getShardsInfo

/-- Function `Query::execute` (lines 23-172): the returned `BlockInputStreams`. -/
def Query.execute {σ β : Type} (ext : Externals) (q : Query σ β) (qc : σ) : List β :=
  (q.executeState ext qc).res

/-! ## `Query::execute` with its partial operations made explicit

Unsigned division and remainder are undefined for a zero divisor, and `pools->push_back` and
`pools->size()` are undefined on a null `pools`.  These are the only operations of `execute`
itself that can go wrong; here they report a fault instead.  The calls on the stream constructor
are the ones of the model above, which return normally. -/

/-- What an operation of `execute` itself can run into. -/
inductive Fault where
  | division_by_zero
  | null_dereference
deriving DecidableEq, Repr

/-- Operator `/` on `size_t`. -/
def checkedDiv (a b : Nat) : Except Fault Nat :=
  if b = 0 then Except.error Fault.division_by_zero else Except.ok (a / b)

/-- Operator `%` on `size_t`. -/
def checkedMod (a b : Nat) : Except Fault Nat :=
  if b = 0 then Except.error Fault.division_by_zero else Except.ok (a % b)

/-- Line 68, with the division that may fault. -/
def pools_per_thread_checked (remote_count thread_count : Nat) : Except Fault Nat :=
  if thread_count > 0 then checkedDiv remote_count thread_count else Except.ok 0

/-- Line 69, with the remainder that may fault. -/
def remainder_checked (remote_count thread_count : Nat) : Except Fault Nat :=
  if thread_count > 0 then checkedMod remote_count thread_count else Except.ok 0

/-- Operator `->` on a `ConnectionPoolsPtr`. -/
def derefPools (pools : ConnectionPoolsPtr) : Except Fault ConnectionPools :=
  match pools with
  | none => Except.error Fault.null_dereference
  | some pools => Except.ok pools

/-- Lines 142-168, with the dereference of `pools` (lines 160-161) that may fault. -/
def Query.remoteContributionChecked {σ β : Type} (ext : Externals) (q : Query σ β)
    (pools_per_thread remainder : Nat)
    (st : Pass2State σ β) (shard_info : ShardInfo) : Except Fault (Pass2State σ β) :=
  let create_local_queries := shard_info.isLocal
  let create_remote_queries :=
    if q.query_constructor.isInclusive then shard_info.hasRemoteConnections
    else !create_local_queries
  if create_remote_queries then
    let excess := if st.current_thread < remainder then 1 else 0
    let actual_pools_per_thread := pools_per_thread + excess
    if actual_pools_per_thread = 1 then
      let r := q.query_constructor.createRemote shard_info.pool (q.query ext)
        (q.new_settings ext) q.throttler q.context st.qc
      Except.ok
        { st with qc := r.2,
                  calls := st.calls ++ [Call.createRemote shard_info.pool (q.query ext)
                    (q.new_settings ext) q.throttler q.context r.1],
                  res := st.res ++ [r.1],
                  current_thread := st.current_thread + 1 }
    else
      let st := if st.do_init then { st with pools := some [], do_init := false } else st
      match derefPools st.pools with
      | Except.error fault => Except.error fault
      | Except.ok pools =>
        let st := { st with pools := some (pools ++ [shard_info.pool]) }
        if (pools ++ [shard_info.pool]).length = actual_pools_per_thread then
          let r := q.query_constructor.createRemotePools st.pools (q.query ext)
            (q.new_settings ext) q.throttler q.context st.qc
          Except.ok
            { st with qc := r.2,
                      calls := st.calls ++ [Call.createRemotePools st.pools (q.query ext)
                        (q.new_settings ext) q.throttler q.context r.1],
                      res := st.res ++ [r.1],
                      do_init := true,
                      current_thread := st.current_thread + 1 }
        else Except.ok st
  else Except.ok st

/-- Second loop over the shards (lines 122-169), stopping at the first fault. -/
def Query.pass2Checked {σ β : Type} (ext : Externals) (q : Query σ β)
    (pools_per_thread remainder : Nat) :
    Pass2State σ β → List ShardInfo → Except Fault (Pass2State σ β)
  | st, [] => Except.ok st
  | st, shard_info :: shards =>
    match q.remoteContributionChecked ext pools_per_thread remainder
        (q.localContribution ext st shard_info) shard_info with
    | Except.error fault => Except.error fault
    | Except.ok st => Query.pass2Checked ext q pools_per_thread remainder st shards

/-- Function `Query::execute` (lines 23-172) with faults: the returned `BlockInputStreams`, or
the fault `execute` ran into. -/
def Query.executeChecked {σ β : Type} (ext : Externals) (q : Query σ β) (qc : σ) :
    Except Fault (List β) :=
  match pools_per_thread_checked q.remote_count q.thread_count with
  | Except.error fault => Except.error fault
  | Except.ok pools_per_thread =>
    match remainder_checked q.remote_count q.thread_count with
    | Except.error fault => Except.error fault
    | Except.ok remainder =>
      let stream_count := (pass1 q.query_constructor.isInclusive pools_per_thread remainder
        q.cluster.getShardsInfo).stream_count
      let qc := q.query_constructor.setupBarrier stream_count qc
      match q.pass2Checked ext pools_per_thread remainder
          (Pass2State.initial qc [Call.setupBarrier stream_count]) q.cluster.getShardsInfo with
      | Except.error fault => Except.error fault
      | Except.ok st => Except.ok st.res

/-- Modelled from the spec: `Cluster::getRemoteShardCount()`, whose body is not in `Query.cpp`.
Step 1 of the spec counts the remote-eligible shards of the active selection mode; `execute`
asks the cluster for the count in exclusive mode only, where a shard is remote-eligible iff it
is not local. -/
def getRemoteShardCount_spec (shards : List ShardInfo) : Nat :=
  (shards.filter (fun shard_info => !shard_info.isLocal)).length

/-! ## Vocabulary for the statements -/

/-- Remote call on the stream constructor, up to the arguments that are the same in every call
of one `execute`: the single-pool overload with its pool, or the pool-group overload with its
`ConnectionPoolsPtr`. -/
inductive RemoteCall where
  | single (pool : ConnectionPoolPtr)
  | group (pools : ConnectionPoolsPtr)
deriving DecidableEq, Repr

/-- Pools carried by the stream a remote call creates. -/
def RemoteCall.pools : RemoteCall → ConnectionPools
  | RemoteCall.single pool => [pool]
  | RemoteCall.group pools => pools.getD []

/-- Whether the remote call went through the pool-group overload. -/
def RemoteCall.isGroup : RemoteCall → Bool
  | RemoteCall.single _ => false
  | RemoteCall.group _ => true

/-- Remote call a recorded call stands for, if it is a `createRemote` call. -/
def Call.toRemoteCall {β : Type} : Call β → Option RemoteCall
  | Call.createRemote pool _ _ _ _ _ => some (RemoteCall.single pool)
  | Call.createRemotePools pools _ _ _ _ _ => some (RemoteCall.group pools)
  | _ => none

/-- The `createRemote` calls among `calls`, in order. -/
def remoteCalls {β : Type} (calls : List (Call β)) : List RemoteCall :=
  calls.filterMap Call.toRemoteCall

/-- Argument of a recorded `setupBarrier` call. -/
def Call.barrierArg {β : Type} : Call β → Option Nat
  | Call.setupBarrier shard_count => some shard_count
  | _ => none

/-- Stream a recorded call returned, if it returned one. -/
def Call.returned {β : Type} : Call β → Option β
  | Call.setupBarrier _ => none
  | Call.createLocal _ _ _ ret => ret
  | Call.createRemote _ _ _ _ _ ret => some ret
  | Call.createRemotePools _ _ _ _ _ ret => some ret

/-- Whether a recorded call is a `createLocal` call. -/
def Call.isLocal {β : Type} : Call β → Bool
  | Call.createLocal _ _ _ _ => true
  | _ => false

/-- Whether a recorded call is a `createLocal` call that returned a null stream. -/
def Call.isDeclined {β : Type} : Call β → Bool
  | Call.createLocal _ _ _ none => true
  | _ => false

/-- The shards that make a remote contribution in the shard walk. -/
def remoteShards (is_inclusive : Bool) (shards : List ShardInfo) : List ShardInfo :=
  shards.filter (create_remote_queries is_inclusive)

/-- Pools of the remote-eligible shards, in shard order. -/
def remotePools (is_inclusive : Bool) (shards : List ShardInfo) : ConnectionPools :=
  (remoteShards is_inclusive shards).map ShardInfo.pool

/-- Sum of `local_addresses.size()` over the shards whose `isLocal()` is true. -/
def local_stream_count (shards : List ShardInfo) : Nat :=
  ((shards.filter ShardInfo.isLocal).map (fun shard_info => shard_info.local_addresses.length)).sum

/-- Bucket target sizes for the thread indices `0 .. thread_count - 1`. -/
def bucket_sizes (remote_count thread_count : Nat) : List Nat :=
  (List.range thread_count).map
    (actual_pools_per_thread (pools_per_thread remote_count thread_count)
      (remainder remote_count thread_count))

/-- Cut a list into consecutive pieces of the given sizes. -/
def splitBuckets {α : Type} : List Nat → List α → List (List α)
  | [], _ => []
  | k :: ks, xs => xs.take k :: splitBuckets ks (xs.drop k)

/-- Remote call made for a completed bucket: the single-pool overload for a bucket of one pool,
the pool-group overload otherwise. -/
def RemoteCall.ofBucket : ConnectionPools → RemoteCall
  | [pool] => RemoteCall.single pool
  | pools => RemoteCall.group (some pools)

/-- Size of the accumulator behind a `ConnectionPoolsPtr`; a null pointer holds nothing. -/
def poolsSize : ConnectionPoolsPtr → Nat
  | none => 0
  | some pools => pools.length

/-- The premise that the remote count used for sizing equals the number of remote-eligible
shards. -/
def Query.Consistent {σ β : Type} (q : Query σ β) : Prop :=
  q.remote_count = (remoteShards q.query_constructor.isInclusive q.cluster.getShardsInfo).length

/-- Address of a recorded `createLocal` call. -/
def Call.localAddress {β : Type} : Call β → Option Address
  | Call.createLocal _ _ address _ => some address
  | _ => none

/-- Settings snapshot a recorded call carries: the settings argument of a `createRemote` call,
the settings of the context given to a `createLocal` call. -/
def Call.settingsArg {β : Type} : Call β → Option Settings
  | Call.setupBarrier _ => none
  | Call.createLocal _ context _ _ => some context.settings
  | Call.createRemote _ _ settings _ _ _ => some settings
  | Call.createRemotePools _ _ settings _ _ _ => some settings

/-- Context argument of a recorded call. -/
def Call.contextArg {β : Type} : Call β → Option Context
  | Call.setupBarrier _ => none
  | Call.createLocal _ context _ _ => some context
  | Call.createRemote _ _ _ _ context _ => some context
  | Call.createRemotePools _ _ _ _ context _ => some context

/-- Throttler argument of a recorded `createRemote` call. -/
def Call.throttlerArg {β : Type} : Call β → Option ThrottlerPtr
  | Call.createRemote _ _ _ throttler _ _ => some throttler
  | Call.createRemotePools _ _ _ throttler _ _ => some throttler
  | _ => none

/-- A call as the second loop of `execute` issues it: `createLocal` with the query and the
context copy that holds the new settings, or one of the two `createRemote` overloads with the
query text, the new settings, the throttler and the context of the query. -/
def Query.Issues {σ β : Type} (ext : Externals) (q : Query σ β) (c : Call β) : Prop :=
  (∃ address ret,
    c = Call.createLocal q.query_ast (q.context.setSettings (q.new_settings ext)) address ret) ∨
  (∃ pool ret,
    c = Call.createRemote pool (q.query ext) (q.new_settings ext) q.throttler q.context ret) ∨
  (∃ pools ret,
    c = Call.createRemotePools pools (q.query ext) (q.new_settings ext) q.throttler q.context
      ret)

/-- Number of pools the first loop counts as accumulated: none when `do_init` asks for a fresh
count. -/
def Pass1State.acc (st : Pass1State) : Nat :=
  if st.do_init then 0 else st.pool_count

/-- State of the second loop of `execute` after the shards `shards`, which are the first shards
of the cluster, have been visited. -/
def Query.stateAfter {σ β : Type} (ext : Externals) (q : Query σ β) (qc : σ)
    (shards : List ShardInfo) : Pass2State σ β :=
  q.pass2 ext q.pools_per_thread q.remainder
    (Pass2State.initial (q.query_constructor.setupBarrier q.stream_count qc)
      [Call.setupBarrier q.stream_count]) shards

/-- State of the first loop of `execute` after the shards `shards`, which are the first shards
of the cluster, have been visited. -/
def Query.countAfter {σ β : Type} (q : Query σ β) (shards : List ShardInfo) : Pass1State :=
  pass1 q.query_constructor.isInclusive q.pools_per_thread q.remainder shards

/-! ## The grouping bookkeeping on its own

The bookkeeping of the second loop (`current_thread`, `do_init`, `pools`) only changes in the
remote contribution of a shard, and there it only depends on the shard through its pool.
`remoteStep` is that part of the loop body, and `remoteWalk` runs it over the pools of the
remote-eligible shards; the lemma `proj_pass2` shows that this is what the second loop does. -/

/-- The grouping variables of the second loop and the remote calls made so far. -/
structure RemoteState where
  current_thread : Nat
  do_init : Bool
  pools : ConnectionPoolsPtr
  emitted : List RemoteCall
deriving DecidableEq, Repr

/-- Lines 144-167 on the grouping variables. -/
def remoteStep (pools_per_thread remainder : Nat) (st : RemoteState)
    (pool : ConnectionPoolPtr) : RemoteState :=
  let excess := if st.current_thread < remainder then 1 else 0
  let actual_pools_per_thread := pools_per_thread + excess
  if actual_pools_per_thread = 1 then
    { st with emitted := st.emitted ++ [RemoteCall.single pool],
              current_thread := st.current_thread + 1 }
  else
    let st := if st.do_init then { st with pools := some [], do_init := false } else st
    let st := { st with pools := st.pools.map (fun pools => pools ++ [pool]) }
    if st.pools.map List.length = some actual_pools_per_thread then
      { st with emitted := st.emitted ++ [RemoteCall.group st.pools],
                do_init := true,
                current_thread := st.current_thread + 1 }
    else st

/-- The grouping variables after the pools of the remote-eligible shards have been visited. -/
def remoteWalk (pools_per_thread remainder : Nat) (st : RemoteState)
    (pools : ConnectionPools) : RemoteState :=
  pools.foldl (remoteStep pools_per_thread remainder) st

/-- Pools the accumulator holds: none when `do_init` asks for a fresh accumulator. -/
def RemoteState.acc (st : RemoteState) : ConnectionPools :=
  if st.do_init then [] else st.pools.getD []

/-- The grouping variables of a state of the second loop. -/
def Pass2State.proj {σ β : Type} (st : Pass2State σ β) : RemoteState :=
  { current_thread := st.current_thread, do_init := st.do_init, pools := st.pools,
    emitted := remoteCalls st.calls }

/-- Agreement of the variables of the first loop with the grouping variables of the second:
same thread index, same `do_init`, `pool_count` equal to the size of the accumulator, a
non-null accumulator once `do_init` is false, and `stream_count` equal to `local_count` plus the
number of remote calls made. -/
def Pass1State.Agrees (st : Pass1State) (rs : RemoteState) (local_count : Nat) : Prop :=
  st.current_thread = rs.current_thread ∧
  st.do_init = rs.do_init ∧
  st.pool_count = poolsSize rs.pools ∧
  (rs.do_init = false → rs.pools ≠ none) ∧
  st.stream_count = local_count + rs.emitted.length

/-! ## Concrete inputs -/

/-- No external function matters for the planning: a fixed query text, no clamping. -/
def sampleExternals : Externals :=
  { queryToString := fun _ => "SELECT 1", saturate := fun v _ => v }

/-- Stream constructor without state whose streams are numbers: a local stream is its address,
a single-pool remote stream is its pool, a multiplexed remote stream is the number of its
pools. -/
def plainConstructor (is_inclusive : Bool) : IQueryConstructor Unit Nat :=
  { isInclusive := is_inclusive
    setupBarrier := fun _ qc => qc
    createLocal := fun _ _ address qc => (some address, qc)
    createRemote := fun pool _ _ _ _ qc => (pool, qc)
    createRemotePools := fun pools _ _ _ _ qc => (poolsSize pools, qc) }

/-- Stream constructor whose `createLocal` always returns a null stream. -/
def decliningConstructor (is_inclusive : Bool) : IQueryConstructor Unit Nat :=
  { plainConstructor is_inclusive with createLocal := fun _ _ _ qc => (none, qc) }

/-- Settings with the given thread maximum and nothing else set. -/
def sampleSettings (max_distributed_processing_threads : Nat) : Settings :=
  { queue_max_wait_ms := 0, max_concurrent_queries_for_user := 0,
    max_distributed_processing_threads := max_distributed_processing_threads,
    limits := { max_execution_time := 0, max_network_bandwidth := 0, max_network_bytes := 0 },
    other := 0 }

/-- Query over the given shards. -/
def sampleQuery (constructor : IQueryConstructor Unit Nat) (shards : List ShardInfo)
    (remote_shard_count max_distributed_processing_threads : Nat)
    (enable_shard_multiplexing : Bool) : Query Unit Nat :=
  { query_constructor := constructor
    cluster := { getShardsInfo := shards, getRemoteShardCount := remote_shard_count }
    query_ast := 0
    context := { settings := sampleSettings max_distributed_processing_threads, other := 0 }
    settings := sampleSettings max_distributed_processing_threads
    enable_shard_multiplexing := enable_shard_multiplexing }

/-- Shard that is only reachable remotely, through `pool`. -/
def remoteShard (pool : ConnectionPoolPtr) : ShardInfo :=
  { isLocal := false, hasRemoteConnections := true, local_addresses := [], pool := pool }

/-- Shard with the given local addresses and a remote pool. -/
def mixedShard (local_addresses : List Address) (pool : ConnectionPoolPtr) : ShardInfo :=
  { isLocal := true, hasRemoteConnections := true, local_addresses := local_addresses,
    pool := pool }

/-- Shard that is only served locally. -/
def localShard (local_addresses : List Address) : ShardInfo :=
  { isLocal := true, hasRemoteConnections := false, local_addresses := local_addresses,
    pool := 0 }

/-- One local shard with one address, and a stream constructor that declines. -/
def decliningQuery : Query Unit Nat :=
  sampleQuery (decliningConstructor true) [localShard [7]] 0 0 true

/-- Five remote-eligible shards, exclusive mode, multiplexing enabled, max-threads 2. -/
def fiveShardQuery : Query Unit Nat :=
  sampleQuery (plainConstructor false)
    [remoteShard 10, remoteShard 11, remoteShard 12, remoteShard 13, remoteShard 14] 5 2 true

/-- Three shards with one local address and one remote pool each, inclusive mode, multiplexing
enabled, max-threads 10. -/
def threeShardQuery : Query Unit Nat :=
  sampleQuery (plainConstructor true)
    [mixedShard [1] 10, mixedShard [2] 11, mixedShard [3] 12] 0 10 true

/-- One remote-eligible shard, multiplexing enabled, max-threads 0. -/
def oneShardUnboundedQuery : Query Unit Nat :=
  sampleQuery (plainConstructor true) [remoteShard 10] 0 0 true

/-- One shard that is only served locally, inclusive mode, multiplexing enabled, max-threads
2: no shard is remote-eligible. -/
def localOnlyQuery : Query Unit Nat :=
  sampleQuery (plainConstructor true) [localShard [7]] 0 2 true

end ClusterProxy

/-! # KQL date-time functions

A shallow embedding of `DatetimePart::convertImpl` and `MakeDateTime::convertImpl` of
`src/Parsers/Kusto/KustoFunctions/KQLDateTimeFunctions.cpp`.

* A `String` (`std::string`) is the list of its `char`s.
* `getKQLFunctionName` and `getConvertedArgument` are not defined in this file.  What they
  return at the token position of the call is a parameter of the model: the function name, and
  the converted arguments in the order in which the function asks for them.
* A call either returns its `bool` or leaves by an exception; the model records which, together
  with the value of the reference parameter `out` after the call.
-/

/-- Contents of a `String`: its sequence of `char`s. -/
abbrev KQLString := List Char

/-- How a call of `convertImpl` can fail: `DB::Exception` with `ErrorCodes::SYNTAX_ERROR` and
its message, `std::out_of_range` thrown by `std::string::erase`, or undefined behaviour
(`front()` of an empty string). -/
inductive ConvertFailure where
  | SYNTAX_ERROR (message : KQLString)
  | out_of_range
  | undefined_behaviour
deriving DecidableEq, Repr

/-- How a call of `convertImpl` ends: it returns a value or fails. -/
inductive Completion where
  | returned (value : Bool)
  | raised (failure : ConvertFailure)
deriving DecidableEq, Repr

/-- Result of a call of `convertImpl`: how it ended and the value of `out` afterwards. -/
structure ConvertResult where
  completion : Completion
  out : KQLString
deriving DecidableEq, Repr

/-- Function `Poco::toUpper`: every `char` to upper case, ASCII letters only. -/
def toUpper (str : KQLString) : KQLString :=
  str.map Char.toUpper

/-- Lines 92-99 of `DatetimePart::convertImpl`: the value of `part` when the chain of
comparisons is reached, from the converted first argument.  `part.size() - 2` is computed in
`size_t` (64 bits), and `erase(pos)` throws `std::out_of_range` for `pos > size()`. -/
def DatetimePart.part (argument : KQLString) : Except ConvertFailure KQLString :=
  let part := toUpper argument
  match part.head? with
  | none => Except.error ConvertFailure.undefined_behaviour
  | some front =>
    if front = '\"' ∨ front = '\'' then
      let part := part.drop 1
      let pos := (part.length + (2 ^ 64 - 2)) % 2 ^ 64
      if pos > part.length then Except.error ConvertFailure.out_of_range
      else Except.ok (part.take pos)
    else Except.ok part

/-- Lines 106-127 of `DatetimePart::convertImpl`: the value of `format` for a value of `part`,
or `none` where the chain ends in the `throw`. -/
def DatetimePart.format (part : KQLString) : Option KQLString :=
  if part = "YEAR".data then some "%G".data
  else if part = "QUARTER".data then some "%Q".data
  else if part = "MONTH".data then some "%m".data
  else if part = "WEEK_OF_YEAR".data then some "%V".data
  else if part = "DAY".data then some "%e".data
  else if part = "DAYOFYEAR".data then some "%j".data
  else if part = "HOUR".data then some "%I".data
  else if part = "MINUTE".data then some "%M".data
  else if part = "SECOND".data then some "%S".data
  else none

/-- Function `DatetimePart::convertImpl` (lines 85-132).  `fn_name` is what
`getKQLFunctionName(pos)` returns, `part_argument` what the first `getConvertedArgument`
returns, `comma` whether the token after it is a comma, and `date_argument` what the second
`getConvertedArgument` returns. -/
def DatetimePart.convertImpl (out fn_name part_argument : KQLString) (comma : Bool)
    (date_argument : KQLString) : ConvertResult :=
  if fn_name = [] then { completion := Completion.returned false, out := out }
  else
    match DatetimePart.part part_argument with
    | Except.error failure => { completion := Completion.raised failure, out := out }
    | Except.ok part =>
      let date := if comma then date_argument else []
      match DatetimePart.format part with
      | none =>
        { completion := Completion.raised (ConvertFailure.SYNTAX_ERROR
            ("Unexpected argument ".data ++ part ++ " for ".data ++ fn_name)),
          out := out }
      | some format =>
        { completion := Completion.returned true,
          out := "formatDateTime(".data ++ date ++ ", '".data ++ format ++ "' )".data }

/-- Function `MakeDateTime::convertImpl` (lines 513-546).  `fn_name` is what
`getKQLFunctionName(pos)` returns and `converted` lists what `getConvertedArgument` returns in
the successive iterations of the loop, one entry per argument before the closing bracket; the
skipped commas only move the token position.  `arg_count` is an `int` that starts at 0 and is
incremented once per argument; it is a natural number here. -/
def MakeDateTime.convertImpl (out fn_name : KQLString) (converted : List KQLString) :
    ConvertResult :=
  if fn_name = [] then { completion := Completion.returned false, out := out }
  else
    let loop := converted.foldl
      (fun (state : KQLString × Nat) arg => (state.1 ++ arg ++ ",".data, state.2 + 1)) ([], 0)
    let arguments := loop.1
    let arg_count := loop.2
    if arg_count < 1 ∨ arg_count > 7 then
      { completion := Completion.raised (ConvertFailure.SYNTAX_ERROR
          ("argument count out of bound in function: ".data ++ fn_name)),
        out := out }
    else
      let arguments :=
        if arg_count < 7 then
          (List.range' arg_count (7 - arg_count)).foldl
            (fun arguments _ => arguments ++ "0 ,".data) arguments
        else arguments
      let arguments := arguments ++ "7,'UTC'".data
      { completion := Completion.returned true,
        out := "makeDateTime64(".data ++ arguments ++ ")".data }

namespace ClusterProxy

/-! ## Lemmas on the grouping bookkeeping -/

theorem remoteWalk_nil (ppt rem : Nat) (st : RemoteState) :
    remoteWalk ppt rem st [] = st := rfl

theorem remoteWalk_cons (ppt rem : Nat) (st : RemoteState) (p : ConnectionPoolPtr)
    (ps : ConnectionPools) :
    remoteWalk ppt rem st (p :: ps) = remoteWalk ppt rem (remoteStep ppt rem st p) ps := rfl

theorem remoteWalk_append (ppt rem : Nat) (st : RemoteState) (ps qs : ConnectionPools) :
    remoteWalk ppt rem st (ps ++ qs) = remoteWalk ppt rem (remoteWalk ppt rem st ps) qs := by
  simp [remoteWalk, List.foldl_append]

theorem remoteStep_single (ppt rem : Nat) (st : RemoteState) (p : ConnectionPoolPtr)
    (h : actual_pools_per_thread ppt rem st.current_thread = 1) :
    remoteStep ppt rem st p =
      { st with emitted := st.emitted ++ [RemoteCall.single p],
                current_thread := st.current_thread + 1 } := by
  unfold actual_pools_per_thread at h
  simp only [remoteStep]
  rw [if_pos h]

theorem remoteStep_full (ppt rem : Nat) (st : RemoteState) (p : ConnectionPoolPtr)
    (h1 : actual_pools_per_thread ppt rem st.current_thread ≠ 1)
    (hp : st.do_init = false → st.pools ≠ none)
    (hk : st.acc.length + 1 = actual_pools_per_thread ppt rem st.current_thread) :
    remoteStep ppt rem st p =
      { current_thread := st.current_thread + 1, do_init := true,
        pools := some (st.acc ++ [p]),
        emitted := st.emitted ++ [RemoteCall.group (some (st.acc ++ [p]))] } := by
  unfold actual_pools_per_thread at h1 hk
  obtain ⟨ct, di, pools, em⟩ := st
  simp only [remoteStep]
  rw [if_neg h1]
  cases di with
  | true =>
    simp only [RemoteState.acc] at hk ⊢
    simp at hk ⊢
    simpa using hk
  | false =>
    cases pools with
    | none => exact absurd rfl (hp rfl)
    | some a =>
      simp only [RemoteState.acc] at hk ⊢
      simp at hk ⊢
      simpa using hk

theorem remoteStep_part (ppt rem : Nat) (st : RemoteState) (p : ConnectionPoolPtr)
    (h1 : actual_pools_per_thread ppt rem st.current_thread ≠ 1)
    (hp : st.do_init = false → st.pools ≠ none)
    (hk : st.acc.length + 1 ≠ actual_pools_per_thread ppt rem st.current_thread) :
    remoteStep ppt rem st p =
      { st with do_init := false, pools := some (st.acc ++ [p]) } := by
  unfold actual_pools_per_thread at h1 hk
  obtain ⟨ct, di, pools, em⟩ := st
  simp only [remoteStep]
  rw [if_neg h1]
  cases di with
  | true =>
    simp only [RemoteState.acc] at hk ⊢
    simp at hk ⊢
    simpa using hk
  | false =>
    cases pools with
    | none => exact absurd rfl (hp rfl)
    | some a =>
      simp only [RemoteState.acc] at hk ⊢
      simp at hk ⊢
      simpa using hk

theorem remoteWalk_fill (ppt rem : Nat) :
    ∀ (ps : ConnectionPools) (st : RemoteState), ps ≠ [] →
      actual_pools_per_thread ppt rem st.current_thread ≠ 1 →
      (st.do_init = false → st.pools ≠ none) →
      st.acc.length + ps.length = actual_pools_per_thread ppt rem st.current_thread →
      remoteWalk ppt rem st ps =
        { current_thread := st.current_thread + 1, do_init := true,
          pools := some (st.acc ++ ps),
          emitted := st.emitted ++ [RemoteCall.group (some (st.acc ++ ps))] } := by
  intro ps
  induction ps with
  | nil => intro st h; exact absurd rfl h
  | cons p ps ih =>
    intro st _ h1 hp hk
    rw [remoteWalk_cons]
    cases ps with
    | nil =>
      rw [remoteWalk_nil]
      exact remoteStep_full ppt rem st p h1 hp (by simpa using hk)
    | cons p2 ps2 =>
      have hne : st.acc.length + 1 ≠ actual_pools_per_thread ppt rem st.current_thread := by
        simp only [List.length_cons] at hk
        omega
      rw [remoteStep_part ppt rem st p h1 hp hne]
      have key := ih { st with do_init := false, pools := some (st.acc ++ [p]) }
        (by simp) h1 (by simp)
        (by
          simp only [RemoteState.acc, List.length_cons] at hk ⊢
          simp
          omega)
      rw [key]
      simp [RemoteState.acc]

theorem actual_pools_per_thread_pos (ppt rem t : Nat) (h : 1 ≤ ppt) :
    1 ≤ actual_pools_per_thread ppt rem t := by
  unfold actual_pools_per_thread
  simp only
  omega

theorem ofBucket_of_two_le (g : ConnectionPools) (h : 2 ≤ g.length) :
    RemoteCall.ofBucket g = RemoteCall.group (some g) := by
  match g, h with
  | [], h => simp at h
  | [_], h => simp at h
  | _ :: _ :: _, _ => rfl

theorem remoteWalk_first_bucket (ppt rem : Nat) (st : RemoteState) (g : ConnectionPools)
    (hd : st.do_init = true)
    (hk1 : 1 ≤ actual_pools_per_thread ppt rem st.current_thread)
    (hlen : g.length = actual_pools_per_thread ppt rem st.current_thread) :
    (remoteWalk ppt rem st g).current_thread = st.current_thread + 1 ∧
    (remoteWalk ppt rem st g).do_init = true ∧
    (remoteWalk ppt rem st g).emitted = st.emitted ++ [RemoteCall.ofBucket g] := by
  by_cases h1 : actual_pools_per_thread ppt rem st.current_thread = 1
  · rw [h1] at hlen
    match g, hlen with
    | [p], _ =>
      rw [remoteWalk_cons, remoteWalk_nil, remoteStep_single ppt rem st p h1]
      simp [hd, RemoteCall.ofBucket]
  · have hne : g ≠ [] := by
      intro h
      rw [h] at hlen
      simp at hlen
      omega
    have hacc : st.acc = [] := by simp [RemoteState.acc, hd]
    rw [remoteWalk_fill ppt rem g st hne h1 (by simp [hd]) (by rw [hacc]; simpa using hlen)]
    rw [hacc, List.nil_append, ofBucket_of_two_le g (by omega)]
    simp

theorem remoteWalk_buckets (ppt rem : Nat) (hppt : 1 ≤ ppt) :
    ∀ (m t : Nat) (st : RemoteState) (ps : ConnectionPools),
      st.current_thread = t → st.do_init = true →
      ps.length = ((List.range' t m).map (actual_pools_per_thread ppt rem)).sum →
      (remoteWalk ppt rem st ps).current_thread = t + m ∧
      (remoteWalk ppt rem st ps).do_init = true ∧
      (remoteWalk ppt rem st ps).emitted = st.emitted ++
        (splitBuckets ((List.range' t m).map (actual_pools_per_thread ppt rem)) ps).map
          RemoteCall.ofBucket := by
  intro m
  induction m with
  | zero =>
    intro t st ps ht hd hlen
    simp at hlen
    subst hlen
    simp [remoteWalk_nil, ht, hd, splitBuckets]
  | succ m ih =>
    intro t st ps ht hd hlen
    have hk1 := actual_pools_per_thread_pos ppt rem t hppt
    rw [List.range'_succ, List.map_cons, List.sum_cons] at hlen
    rw [List.range'_succ, List.map_cons]
    simp only [splitBuckets, List.map_cons]
    have htake : (ps.take (actual_pools_per_thread ppt rem t)).length =
        actual_pools_per_thread ppt rem t := by
      rw [List.length_take]; omega
    have hdrop : (ps.drop (actual_pools_per_thread ppt rem t)).length =
        ((List.range' (t + 1) m).map (actual_pools_per_thread ppt rem)).sum := by
      rw [List.length_drop]; omega
    have hsplit : remoteWalk ppt rem st ps =
        remoteWalk ppt rem
          (remoteWalk ppt rem st (ps.take (actual_pools_per_thread ppt rem t)))
          (ps.drop (actual_pools_per_thread ppt rem t)) := by
      rw [← remoteWalk_append, List.take_append_drop]
    obtain ⟨f1, f2, f3⟩ := remoteWalk_first_bucket ppt rem st
      (ps.take (actual_pools_per_thread ppt rem t)) hd (by rw [ht]; exact hk1)
      (by rw [ht]; exact htake)
    obtain ⟨g1, g2, g3⟩ := ih (t + 1) _ _ (by rw [f1, ht]) f2 hdrop
    rw [hsplit, g1, g2, g3, f3]
    refine ⟨by omega, rfl, ?_⟩
    simp

/-! ## Arithmetic of the bucket sizes -/

theorem sum_range_excess (a r : Nat) :
    ∀ n : Nat, ((List.range n).map (actual_pools_per_thread a r)).sum = n * a + min n r := by
  intro n
  induction n with
  | zero => simp
  | succ n ih =>
    rw [List.range_succ, List.map_append, List.sum_append, ih]
    simp only [List.map_cons, List.map_nil, List.sum_cons, List.sum_nil, actual_pools_per_thread]
    split <;> rename_i h
    · rw [Nat.min_eq_left (by omega), Nat.min_eq_left (by omega)]
      rw [Nat.succ_mul]; omega
    · rw [Nat.min_eq_right (by omega), Nat.min_eq_right (by omega)]
      rw [Nat.succ_mul]; omega

theorem bucket_sizes_sum (rc tc : Nat) (h : 0 < tc) : (bucket_sizes rc tc).sum = rc := by
  unfold bucket_sizes
  rw [sum_range_excess]
  simp only [pools_per_thread, remainder, if_pos h]
  rw [Nat.min_eq_right (Nat.le_of_lt (Nat.mod_lt _ h))]
  exact Nat.div_add_mod rc tc

theorem bucket_sizes_length (rc tc : Nat) : (bucket_sizes rc tc).length = tc := by
  simp [bucket_sizes]

theorem thread_count_le (e : Bool) (rc mx : Nat) : thread_count e rc mx ≤ rc := by
  unfold thread_count
  split
  · exact Nat.le_refl _
  · split
    · omega
    · split
      · omega
      · exact Nat.min_le_left _ _

theorem thread_count_eq_zero_iff (e : Bool) (rc mx : Nat) :
    thread_count e rc mx = 0 ↔ rc = 0 := by
  unfold thread_count
  split
  · exact Iff.rfl
  · split
    · simp [*]
    · split
      · simp [*]
      · rename_i h1 h2
        constructor
        · intro h
          rcases Nat.min_eq_zero_iff.mp h with h | h
          · exact h
          · exact absurd h h2
        · intro h; exact absurd h h1

theorem pools_per_thread_pos (rc tc : Nat) (h0 : 0 < tc) (hle : tc ≤ rc) :
    1 ≤ pools_per_thread rc tc := by
  simp only [pools_per_thread, if_pos h0]
  exact (Nat.one_le_div_iff h0).mpr hle

/-! ## Cutting a list into buckets -/

theorem splitBuckets_flatten {α : Type} :
    ∀ (sizes : List Nat) (xs : List α), xs.length ≤ sizes.sum →
      (splitBuckets sizes xs).flatten = xs := by
  intro sizes
  induction sizes with
  | nil =>
    intro xs h
    simp at h
    simp [splitBuckets, h]
  | cons k ks ih =>
    intro xs h
    simp only [splitBuckets, List.flatten_cons]
    rw [ih (xs.drop k) (by rw [List.length_drop]; simp only [List.sum_cons] at h; omega)]
    exact List.take_append_drop k xs

theorem splitBuckets_lengths {α : Type} :
    ∀ (sizes : List Nat) (xs : List α), sizes.sum ≤ xs.length →
      (splitBuckets sizes xs).map List.length = sizes := by
  intro sizes
  induction sizes with
  | nil => intro xs _; rfl
  | cons k ks ih =>
    intro xs h
    simp only [List.sum_cons] at h
    simp only [splitBuckets, List.map_cons]
    rw [ih (xs.drop k) (by rw [List.length_drop]; omega), List.length_take,
      Nat.min_eq_left (by omega)]

theorem splitBuckets_length {α : Type} (sizes : List Nat) (xs : List α) :
    (splitBuckets sizes xs).length = sizes.length := by
  induction sizes generalizing xs with
  | nil => rfl
  | cons k ks ih => simp [splitBuckets, ih]

theorem ofBucket_pools (g : ConnectionPools) : (RemoteCall.ofBucket g).pools = g := by
  match g with
  | [] => rfl
  | [_] => rfl
  | _ :: _ :: _ => rfl

theorem ofBucket_pools_map (gs : List ConnectionPools) :
    (gs.map RemoteCall.ofBucket).map RemoteCall.pools = gs := by
  induction gs with
  | nil => rfl
  | cons g gs ih => simp [ofBucket_pools, ih]

/-! ## The second loop and the grouping bookkeeping -/

theorem remoteCalls_append {β : Type} (xs ys : List (Call β)) :
    remoteCalls (xs ++ ys) = remoteCalls xs ++ remoteCalls ys := by
  simp [remoteCalls, List.filterMap_append]

theorem proj_createLocalStep {σ β : Type} (q : Query σ β) (new_context : Context)
    (st : Pass2State σ β) (address : Address) :
    (q.createLocalStep new_context st address).proj = st.proj := by
  unfold Query.createLocalStep
  simp only
  cases h : (q.query_constructor.createLocal q.query_ast new_context address st.qc).1 <;>
    simp [Pass2State.proj, remoteCalls_append, remoteCalls, Call.toRemoteCall]

theorem proj_foldl_createLocalStep {σ β : Type} (q : Query σ β) (new_context : Context)
    (addresses : List Address) (st : Pass2State σ β) :
    (addresses.foldl (q.createLocalStep new_context) st).proj = st.proj := by
  induction addresses generalizing st with
  | nil => rfl
  | cons a as ih => rw [List.foldl_cons, ih, proj_createLocalStep]

theorem proj_localContribution {σ β : Type} (ext : Externals) (q : Query σ β)
    (st : Pass2State σ β) (shard_info : ShardInfo) :
    (q.localContribution ext st shard_info).proj = st.proj := by
  unfold Query.localContribution
  simp only
  split
  · exact proj_foldl_createLocalStep q _ _ st
  · rfl

theorem proj_remoteContribution {σ β : Type} (ext : Externals) (q : Query σ β)
    (ppt rem : Nat) (st : Pass2State σ β) (shard_info : ShardInfo) :
    (q.remoteContribution ext ppt rem st shard_info).proj =
      if create_remote_queries q.query_constructor.isInclusive shard_info then
        remoteStep ppt rem st.proj shard_info.pool
      else st.proj := by
  obtain ⟨qc, calls, res, pools, di, ct⟩ := st
  unfold Query.remoteContribution create_remote_queries
  simp only [Pass2State.proj]
  by_cases hc : (if q.query_constructor.isInclusive = true then shard_info.hasRemoteConnections
      else !shard_info.isLocal) = true
  · rw [if_pos hc, if_pos hc]
    simp only [remoteStep]
    by_cases h1 : ppt + (if ct < rem then 1 else 0) = 1
    · rw [if_pos h1, if_pos h1]
      simp [remoteCalls_append, remoteCalls, Call.toRemoteCall]
    · rw [if_neg h1, if_neg h1]
      cases di with
      | true =>
        simp only [if_true, Option.map_some']
        by_cases h2 : some ([] ++ [shard_info.pool]).length = some (ppt + if ct < rem then 1 else 0)
        · rw [if_pos h2, if_pos h2]
          simp [remoteCalls_append, remoteCalls, Call.toRemoteCall]
        · rw [if_neg h2, if_neg h2]
      | false =>
        simp only [Bool.false_eq_true, if_false]
        by_cases h2 : Option.map List.length (Option.map (fun pools => pools ++ [shard_info.pool]) pools)
            = some (ppt + if ct < rem then 1 else 0)
        · rw [if_pos h2, if_pos h2]
          simp [remoteCalls_append, remoteCalls, Call.toRemoteCall]
        · rw [if_neg h2, if_neg h2]
  · rw [if_neg hc, if_neg hc]

theorem proj_pass2Step {σ β : Type} (ext : Externals) (q : Query σ β)
    (ppt rem : Nat) (st : Pass2State σ β) (shard_info : ShardInfo) :
    (q.pass2Step ext ppt rem st shard_info).proj =
      if create_remote_queries q.query_constructor.isInclusive shard_info then
        remoteStep ppt rem st.proj shard_info.pool
      else st.proj := by
  unfold Query.pass2Step
  rw [proj_remoteContribution, proj_localContribution]

theorem proj_pass2 {σ β : Type} (ext : Externals) (q : Query σ β) (ppt rem : Nat)
    (shards : List ShardInfo) (st : Pass2State σ β) :
    (q.pass2 ext ppt rem st shards).proj =
      remoteWalk ppt rem st.proj (remotePools q.query_constructor.isInclusive shards) := by
  induction shards generalizing st with
  | nil => rfl
  | cons s ss ih =>
    have hstep : q.pass2 ext ppt rem st (s :: ss) =
        q.pass2 ext ppt rem (q.pass2Step ext ppt rem st s) ss := rfl
    rw [hstep, ih, proj_pass2Step]
    by_cases hc : create_remote_queries q.query_constructor.isInclusive s = true
    · simp [remotePools, remoteShards, List.filter_cons, hc, remoteWalk_cons]
    · simp [remotePools, remoteShards, List.filter_cons, hc]

/-! ## The first loop and the grouping bookkeeping -/

theorem local_stream_count_cons (s : ShardInfo) (ss : List ShardInfo) :
    local_stream_count (s :: ss) =
      (if s.isLocal then s.local_addresses.length else 0) + local_stream_count ss := by
  unfold local_stream_count
  cases h : s.isLocal <;> simp [List.filter_cons, h]

theorem pass1Step_agrees (incl : Bool) (ppt rem : Nat) (st : Pass1State) (rs : RemoteState)
    (L : Nat) (s : ShardInfo) (h : st.Agrees rs L) :
    (pass1Step incl ppt rem st s).Agrees
      (if create_remote_queries incl s then remoteStep ppt rem rs s.pool else rs)
      (L + (if s.isLocal then s.local_addresses.length else 0)) := by
  obtain ⟨sc, pc, ct, di⟩ := st
  obtain ⟨ct2, di2, pools, em⟩ := rs
  obtain ⟨h1, h2, h3, h4, h5⟩ := h
  simp only at h1 h2 h3 h4 h5
  subst h1 h2 h3 h5
  unfold pass1Step create_remote_queries Pass1State.Agrees
  simp only
  by_cases hc : (if incl = true then s.hasRemoteConnections else !s.isLocal) = true
  · rw [if_pos hc, if_pos hc]
    simp only [remoteStep]
    have hct : (if s.isLocal = true then
          ({ stream_count := L + em.length + s.local_addresses.length,
             pool_count := poolsSize pools, current_thread := ct, do_init := di } : Pass1State)
        else { stream_count := L + em.length, pool_count := poolsSize pools,
               current_thread := ct, do_init := di }) =
        { stream_count := L + em.length + (if s.isLocal = true then s.local_addresses.length else 0),
          pool_count := poolsSize pools, current_thread := ct, do_init := di } := by
      cases s.isLocal <;> simp
    rw [hct]
    simp only
    by_cases hone : ppt + (if ct < rem then 1 else 0) = 1
    · rw [if_pos hone, if_pos hone]
      simp only [List.length_append, List.length_singleton]
      refine ⟨trivial, trivial, trivial, h4, by omega⟩
    · rw [if_neg hone, if_neg hone]
      cases di with
      | true =>
        simp only [if_true, Option.map_some', List.nil_append, List.length_singleton,
          Option.some.injEq, Nat.zero_add]
        by_cases hfull : 1 = ppt + (if ct < rem then 1 else 0)
        · exact absurd hfull.symm hone
        · rw [if_neg hfull, if_neg hfull]
          simp [poolsSize]
          omega
      | false =>
        cases pools with
        | none => exact absurd rfl (h4 rfl)
        | some a =>
          simp only [Bool.false_eq_true, if_false, Option.map_some', List.length_append,
            List.length_singleton, Option.some.injEq, poolsSize]
          by_cases hfull : a.length + 1 = ppt + (if ct < rem then 1 else 0)
          · rw [if_pos hfull, if_pos hfull]
            simp [poolsSize]
            omega
          · rw [if_neg hfull, if_neg hfull]
            simp [poolsSize]
            omega
  · rw [if_neg hc, if_neg hc]
    cases s.isLocal
    · exact ⟨rfl, rfl, rfl, h4, by simp⟩
    · exact ⟨rfl, rfl, rfl, h4, by simp; omega⟩

theorem pass1_foldl_agrees (incl : Bool) (ppt rem : Nat) (shards : List ShardInfo) :
    ∀ (st : Pass1State) (rs : RemoteState) (L : Nat), st.Agrees rs L →
      (shards.foldl (pass1Step incl ppt rem) st).Agrees
        (remoteWalk ppt rem rs (remotePools incl shards)) (L + local_stream_count shards) := by
  induction shards with
  | nil =>
    intro st rs L h
    simpa [remotePools, remoteShards, remoteWalk_nil, local_stream_count] using h
  | cons s ss ih =>
    intro st rs L h
    have h1 := pass1Step_agrees incl ppt rem st rs L s h
    have h2 := ih _ _ _ h1
    rw [List.foldl_cons, local_stream_count_cons, ← Nat.add_assoc]
    by_cases hc : create_remote_queries incl s = true
    · rw [if_pos hc] at h2
      simpa [remotePools, remoteShards, List.filter_cons, hc, remoteWalk_cons] using h2
    · rw [if_neg hc] at h2
      simpa [remotePools, remoteShards, List.filter_cons, hc] using h2

theorem initial_agrees {σ : Type} (β : Type) (qc : σ) (n : Nat) :
    Pass1State.initial.Agrees (Pass2State.initial qc [(Call.setupBarrier n : Call β)]).proj 0 := by
  simp [Pass1State.Agrees, Pass1State.initial, Pass2State.initial, Pass2State.proj, poolsSize,
    remoteCalls, Call.toRemoteCall]

theorem pass1_agrees_pass2 {σ β : Type} (ext : Externals) (q : Query σ β) (ppt rem : Nat)
    (qc : σ) (n : Nat) (shards : List ShardInfo) :
    (pass1 q.query_constructor.isInclusive ppt rem shards).Agrees
      (q.pass2 ext ppt rem (Pass2State.initial qc [Call.setupBarrier n]) shards).proj
      (local_stream_count shards) := by
  have h := pass1_foldl_agrees q.query_constructor.isInclusive ppt rem shards _ _ _
    (initial_agrees β qc n)
  rw [proj_pass2]
  simpa [pass1] using h

/-! ## The calls of the second loop -/

theorem createLocalStep_calls {σ β : Type} (q : Query σ β) (new_context : Context)
    (st : Pass2State σ β) (address : Address) :
    ∃ c : Call β, (q.createLocalStep new_context st address).calls = st.calls ++ [c] ∧
      (q.createLocalStep new_context st address).res = st.res ++ c.returned.toList ∧
      c.isLocal = true := by
  unfold Query.createLocalStep
  simp only
  cases h : (q.query_constructor.createLocal q.query_ast new_context address st.qc).1 with
  | none => exact ⟨_, rfl, by simp [Call.returned], rfl⟩
  | some stream => exact ⟨_, rfl, by simp [Call.returned], rfl⟩

theorem foldl_createLocalStep_calls {σ β : Type} (q : Query σ β) (new_context : Context)
    (addresses : List Address) :
    ∀ st : Pass2State σ β,
      ∃ tail : List (Call β),
        (addresses.foldl (q.createLocalStep new_context) st).calls = st.calls ++ tail ∧
        (addresses.foldl (q.createLocalStep new_context) st).res =
          st.res ++ tail.filterMap Call.returned ∧
        tail.length = addresses.length ∧ ∀ c ∈ tail, c.isLocal = true := by
  induction addresses with
  | nil => intro st; exact ⟨[], by simp, by simp, rfl, by simp⟩
  | cons a as ih =>
    intro st
    obtain ⟨c, hc1, hc2, hc3⟩ := createLocalStep_calls q new_context st a
    obtain ⟨tail, ht1, ht2, ht3, ht4⟩ := ih (q.createLocalStep new_context st a)
    refine ⟨c :: tail, ?_, ?_, by simp [ht3], ?_⟩
    · rw [List.foldl_cons, ht1, hc1]; simp
    · rw [List.foldl_cons, ht2, hc2]
      cases hr : c.returned <;> simp [List.filterMap_cons, hr]
    · intro d hd
      rcases List.mem_cons.mp hd with h | h
      · rw [h]; exact hc3
      · exact ht4 d h

theorem localContribution_calls {σ β : Type} (ext : Externals) (q : Query σ β)
    (st : Pass2State σ β) (s : ShardInfo) :
    ∃ tail : List (Call β),
      (q.localContribution ext st s).calls = st.calls ++ tail ∧
      (q.localContribution ext st s).res = st.res ++ tail.filterMap Call.returned ∧
      tail.length = (if s.isLocal then s.local_addresses.length else 0) ∧
      ∀ c ∈ tail, c.isLocal = true := by
  unfold Query.localContribution
  simp only
  by_cases h : s.isLocal = true
  · rw [if_pos h, if_pos h]
    exact foldl_createLocalStep_calls q _ _ st
  · rw [if_neg h, if_neg h]
    exact ⟨[], by simp, by simp, rfl, by simp⟩

theorem remoteContribution_calls {σ β : Type} (ext : Externals) (q : Query σ β)
    (ppt rem : Nat) (st : Pass2State σ β) (s : ShardInfo) :
    ∃ tail : List (Call β),
      (q.remoteContribution ext ppt rem st s).calls = st.calls ++ tail ∧
      (q.remoteContribution ext ppt rem st s).res = st.res ++ tail.filterMap Call.returned ∧
      ∀ c ∈ tail, c.isLocal = false ∧ c.barrierArg = none := by
  suffices h : ∀ r, r = q.remoteContribution ext ppt rem st s →
      ∃ tail : List (Call β), r.calls = st.calls ++ tail ∧
        r.res = st.res ++ tail.filterMap Call.returned ∧
        ∀ c ∈ tail, c.isLocal = false ∧ c.barrierArg = none from h _ rfl
  intro r hr
  obtain ⟨qc, calls, res, pools, di, ct⟩ := st
  unfold Query.remoteContribution at hr
  simp only at hr
  by_cases hc : (if q.query_constructor.isInclusive = true then s.hasRemoteConnections
      else !s.isLocal) = true
  · rw [if_pos hc] at hr
    by_cases h1 : ppt + (if ct < rem then 1 else 0) = 1
    · rw [if_pos h1] at hr
      subst hr
      exact ⟨[_], rfl, by simp [Call.returned], by simp [Call.isLocal, Call.barrierArg]⟩
    · rw [if_neg h1] at hr
      cases di with
      | true =>
        simp only [if_true, Option.map_some'] at hr
        by_cases h2 : some ([] ++ [s.pool]).length = some (ppt + if ct < rem then 1 else 0)
        · rw [if_pos h2] at hr
          subst hr
          exact ⟨[_], rfl, by simp [Call.returned], by simp [Call.isLocal, Call.barrierArg]⟩
        · rw [if_neg h2] at hr
          subst hr
          exact ⟨[], by simp, by simp, by simp⟩
      | false =>
        simp only [Bool.false_eq_true, if_false] at hr
        by_cases h2 : Option.map List.length (Option.map (fun pools => pools ++ [s.pool]) pools)
            = some (ppt + if ct < rem then 1 else 0)
        · rw [if_pos h2] at hr
          subst hr
          exact ⟨[_], rfl, by simp [Call.returned], by simp [Call.isLocal, Call.barrierArg]⟩
        · rw [if_neg h2] at hr
          subst hr
          exact ⟨[], by simp, by simp, by simp⟩
  · rw [if_neg hc] at hr
    subst hr
    exact ⟨[], by simp, by simp, by simp⟩

theorem pass2_calls {σ β : Type} (ext : Externals) (q : Query σ β) (ppt rem : Nat)
    (shards : List ShardInfo) :
    ∀ st : Pass2State σ β,
      ∃ tail : List (Call β),
        (q.pass2 ext ppt rem st shards).calls = st.calls ++ tail ∧
        (q.pass2 ext ppt rem st shards).res = st.res ++ tail.filterMap Call.returned ∧
        tail.countP Call.isLocal = local_stream_count shards ∧
        ∀ c ∈ tail, c.barrierArg = none := by
  induction shards with
  | nil => intro st; exact ⟨[], by simp [Query.pass2], by simp [Query.pass2], rfl, by simp⟩
  | cons s ss ih =>
    intro st
    obtain ⟨tl, l1, l2, l3, l4⟩ := localContribution_calls ext q st s
    obtain ⟨tr, r1, r2, r3⟩ :=
      remoteContribution_calls ext q ppt rem (q.localContribution ext st s) s
    obtain ⟨tail, t1, t2, t3, t4⟩ := ih (q.pass2Step ext ppt rem st s)
    have hstep : q.pass2 ext ppt rem st (s :: ss) =
        q.pass2 ext ppt rem (q.pass2Step ext ppt rem st s) ss := rfl
    have hs : q.pass2Step ext ppt rem st s =
        q.remoteContribution ext ppt rem (q.localContribution ext st s) s := rfl
    refine ⟨tl ++ tr ++ tail, ?_, ?_, ?_, ?_⟩
    · rw [hstep, t1, hs, r1, l1]; simp
    · rw [hstep, t2, hs, r2, l2]; simp
    · rw [List.countP_append, List.countP_append, t3, local_stream_count_cons, ← l3]
      have hl : tl.countP Call.isLocal = tl.length :=
        List.countP_eq_length.mpr (fun c hc => l4 c hc)
      have hr : tr.countP Call.isLocal = 0 :=
        List.countP_eq_zero.mpr (fun c hc => by simp [(r3 c hc).1])
      omega
    · intro c hc
      rcases List.mem_append.mp hc with h | h
      · rcases List.mem_append.mp h with h | h
        · have := l4 c h
          cases c <;> simp_all [Call.isLocal, Call.barrierArg]
        · exact (r3 c h).2
      · exact t4 c h

theorem remoteWalk_all_single (ppt rem : Nat)
    (h : ∀ t, actual_pools_per_thread ppt rem t = 1) :
    ∀ (ps : ConnectionPools) (st : RemoteState),
      remoteWalk ppt rem st ps =
        { st with emitted := st.emitted ++ ps.map RemoteCall.single,
                  current_thread := st.current_thread + ps.length } := by
  intro ps
  induction ps with
  | nil => intro st; simp [remoteWalk_nil]
  | cons p ps ih =>
    intro st
    rw [remoteWalk_cons, remoteStep_single ppt rem st p (h _), ih]
    simp
    omega

theorem remoteStep_zero_emitted (st : RemoteState) (p : ConnectionPoolPtr) :
    (remoteStep 0 0 st p).emitted = st.emitted := by
  obtain ⟨ct, di, pools, em⟩ := st
  simp only [remoteStep]
  cases di <;> cases pools <;> simp

theorem remoteWalk_zero_emitted (ps : ConnectionPools) :
    ∀ st : RemoteState, (remoteWalk 0 0 st ps).emitted = st.emitted := by
  induction ps with
  | nil => intro st; rfl
  | cons p ps ih => intro st; rw [remoteWalk_cons, ih, remoteStep_zero_emitted]

/-! ## Counting the calls -/

theorem count_balance {β : Type} (tail : List (Call β)) (h : ∀ c ∈ tail, c.barrierArg = none) :
    (tail.filterMap Call.returned).length + tail.countP Call.isDeclined =
      tail.countP Call.isLocal + (remoteCalls tail).length := by
  induction tail with
  | nil => rfl
  | cons c cs ih =>
    have ih2 := ih (fun d hd => h d (List.mem_cons_of_mem _ hd))
    have hc := h c (List.mem_cons_self _ _)
    unfold remoteCalls at ih2 ⊢
    cases c with
    | setupBarrier n => simp [Call.barrierArg] at hc
    | createLocal a b c ret =>
      cases ret <;>
        simp [List.filterMap_cons, List.countP_cons, Call.returned, Call.isDeclined, Call.isLocal,
          Call.toRemoteCall] <;> omega
    | createRemote a b c d e ret =>
      simp [List.filterMap_cons, List.countP_cons, Call.returned, Call.isDeclined, Call.isLocal,
        Call.toRemoteCall]
      omega
    | createRemotePools a b c d e ret =>
      simp [List.filterMap_cons, List.countP_cons, Call.returned, Call.isDeclined, Call.isLocal,
        Call.toRemoteCall]
      omega

theorem filterMap_barrierArg_eq_nil {β : Type} (tail : List (Call β))
    (h : ∀ c ∈ tail, c.barrierArg = none) : tail.filterMap Call.barrierArg = [] := by
  induction tail with
  | nil => rfl
  | cons c cs ih =>
    rw [List.filterMap_cons, h c (List.mem_cons_self _ _)]
    exact ih (fun d hd => h d (List.mem_cons_of_mem _ hd))

/-! ## The remote count -/

theorem foldl_count_remote (shards : List ShardInfo) :
    ∀ k : Nat, shards.foldl (fun remote_count shard_info =>
        if shard_info.hasRemoteConnections then remote_count + 1 else remote_count) k =
      k + (remoteShards true shards).length := by
  induction shards with
  | nil => intro k; rfl
  | cons s ss ih =>
    intro k
    rw [List.foldl_cons, ih]
    cases h : s.hasRemoteConnections <;>
      simp [remoteShards, List.filter_cons, create_remote_queries, h]
    omega

theorem consistent_of_inclusive {σ β : Type} (q : Query σ β)
    (h : q.query_constructor.isInclusive = true) : q.Consistent := by
  unfold Query.Consistent Query.remote_count remote_count
  rw [h, if_pos rfl, foldl_count_remote, Nat.zero_add]

theorem remotePools_length (incl : Bool) (shards : List ShardInfo) :
    (remotePools incl shards).length = (remoteShards incl shards).length := by
  simp [remotePools]

/-! ## What `execute` does with the remote-eligible shards -/

theorem executeState_proj_eq {σ β : Type} (ext : Externals) (q : Query σ β) (qc : σ) :
    (q.executeState ext qc).proj =
      remoteWalk q.pools_per_thread q.remainder
        { current_thread := 0, do_init := true, pools := none, emitted := [] }
        (remotePools q.query_constructor.isInclusive q.cluster.getShardsInfo) := by
  unfold Query.executeState
  simp only
  rw [proj_pass2]
  rfl

theorem executeState_buckets {σ β : Type} (ext : Externals) (q : Query σ β) (qc : σ)
    (h : q.Consistent) :
    (q.executeState ext qc).current_thread = q.thread_count ∧
    (q.executeState ext qc).do_init = true ∧
    remoteCalls (q.executeState ext qc).calls =
      (splitBuckets (bucket_sizes q.remote_count q.thread_count)
        (remotePools q.query_constructor.isInclusive q.cluster.getShardsInfo)).map
        RemoteCall.ofBucket := by
  have hproj := executeState_proj_eq ext q qc
  have hlen := remotePools_length q.query_constructor.isInclusive q.cluster.getShardsInfo
  rw [← h] at hlen
  suffices hs : (q.executeState ext qc).proj.current_thread = q.thread_count ∧
      (q.executeState ext qc).proj.do_init = true ∧
      (q.executeState ext qc).proj.emitted =
        (splitBuckets (bucket_sizes q.remote_count q.thread_count)
          (remotePools q.query_constructor.isInclusive q.cluster.getShardsInfo)).map
          RemoteCall.ofBucket from hs
  rw [hproj]
  by_cases htc : q.thread_count = 0
  · have hrc : q.remote_count = 0 :=
      (thread_count_eq_zero_iff _ _ _).mp htc
    rw [hrc] at hlen
    have hnil := List.length_eq_zero.mp hlen
    rw [hnil, htc]
    simp [remoteWalk_nil, bucket_sizes, splitBuckets]
  · have hpos : 0 < q.thread_count := Nat.pos_of_ne_zero htc
    have hle : q.thread_count ≤ q.remote_count := thread_count_le _ _ _
    have hppt : 1 ≤ q.pools_per_thread := pools_per_thread_pos _ _ hpos hle
    have hsum := bucket_sizes_sum q.remote_count q.thread_count hpos
    have key := remoteWalk_buckets q.pools_per_thread q.remainder hppt q.thread_count 0
      { current_thread := 0, do_init := true, pools := none, emitted := [] }
      (remotePools q.query_constructor.isInclusive q.cluster.getShardsInfo) rfl rfl
      (by
        rw [← List.range_eq_range']
        rw [hlen]
        exact hsum.symm)
    rw [← List.range_eq_range'] at key
    simpa [bucket_sizes, Query.pools_per_thread, Query.remainder] using key

theorem executeState_calls {σ β : Type} (ext : Externals) (q : Query σ β) (qc : σ) :
    ∃ tail : List (Call β),
      (q.executeState ext qc).calls = Call.setupBarrier q.stream_count :: tail ∧
      q.execute ext qc = tail.filterMap Call.returned ∧
      tail.countP Call.isLocal = local_stream_count q.cluster.getShardsInfo ∧
      ∀ c ∈ tail, c.barrierArg = none := by
  obtain ⟨tail, h1, h2, h3, h4⟩ := pass2_calls ext q q.pools_per_thread q.remainder
    q.cluster.getShardsInfo
    (Pass2State.initial (q.query_constructor.setupBarrier q.stream_count qc)
      [Call.setupBarrier q.stream_count])
  exact ⟨tail, h1, by simpa [Pass2State.initial] using h2, h3, h4⟩

theorem stream_count_eq {σ β : Type} (ext : Externals) (q : Query σ β) (qc : σ) :
    q.stream_count = local_stream_count q.cluster.getShardsInfo +
      (remoteCalls (q.executeState ext qc).calls).length :=
  (pass1_agrees_pass2 ext q q.pools_per_thread q.remainder
    (q.query_constructor.setupBarrier q.stream_count qc) q.stream_count
    q.cluster.getShardsInfo).2.2.2.2

theorem executeState_barrier {σ β : Type} (ext : Externals) (q : Query σ β) (qc : σ) :
    (q.executeState ext qc).calls.filterMap Call.barrierArg = [q.stream_count] := by
  obtain ⟨tail, h1, _, _, h4⟩ := executeState_calls ext q qc
  rw [h1, List.filterMap_cons]
  simp [Call.barrierArg, filterMap_barrierArg_eq_nil tail h4]

theorem execute_eq_returned {σ β : Type} (ext : Externals) (q : Query σ β) (qc : σ) :
    q.execute ext qc = (q.executeState ext qc).calls.filterMap Call.returned := by
  obtain ⟨tail, h1, h2, _, _⟩ := executeState_calls ext q qc
  rw [h1, h2, List.filterMap_cons]
  simp [Call.returned]

/-! ## The claims -/

/-- C1, as the code has it: the stream count that the first loop hands to `setupBarrier` is the
number of streams `execute` returns plus the number of `createLocal` calls that returned a null
stream; the two numbers are equal when no `createLocal` call declines. -/
theorem C1_stream_count_counts_declined_locals {σ β : Type} (ext : Externals) (q : Query σ β)
    (qc : σ) :
    (q.executeState ext qc).calls.filterMap Call.barrierArg = [q.stream_count] ∧
    q.stream_count =
      (q.execute ext qc).length + (q.executeState ext qc).calls.countP Call.isDeclined ∧
    ((∀ c ∈ (q.executeState ext qc).calls, c.isDeclined = false) →
      q.stream_count = (q.execute ext qc).length) := by
  have hsc := stream_count_eq ext q qc
  obtain ⟨tail, h1, h2, h3, h4⟩ := executeState_calls ext q qc
  have hbal := count_balance tail h4
  have hmain : q.stream_count =
      (q.execute ext qc).length + (q.executeState ext qc).calls.countP Call.isDeclined := by
    rw [hsc, h1, h2]
    have e1 : remoteCalls (Call.setupBarrier q.stream_count :: tail) = remoteCalls tail := by
      simp [remoteCalls, List.filterMap_cons, Call.toRemoteCall]
    have e2 : List.countP Call.isDeclined (Call.setupBarrier q.stream_count :: tail) =
        List.countP Call.isDeclined tail := by
      simp [List.countP_cons, Call.isDeclined]
    rw [e1, e2]
    omega
  refine ⟨executeState_barrier ext q qc, hmain, ?_⟩
  intro hall
  have hz : (q.executeState ext qc).calls.countP Call.isDeclined = 0 :=
    List.countP_eq_zero.mpr (fun c hc => by simp [hall c hc])
  omega

/-- C1 fails as stated: with one local shard that has one address and a stream constructor
whose `createLocal` returns a null stream, `setupBarrier` receives 1 and `execute` returns no
stream. -/
theorem C1_counterexample :
    (decliningQuery.executeState sampleExternals ()).calls.filterMap Call.barrierArg = [1] ∧
    (decliningQuery.execute sampleExternals ()).length = 0 := by
  decide

/-- C2: for every shard list, remote count, thread count and selection mode, after every number
`k` of shards the first loop has counted as many remote streams (its `stream_count` minus the
local units) as the second loop has made `createRemote` calls, and both loops hold the same
`current_thread`, the same `do_init` and the same accumulator size. -/
theorem C2_passes_agree {σ β : Type} (ext : Externals) (q : Query σ β)
    (remote_count thread_count : Nat) (qc : σ) (n k : Nat) :
    (pass1 q.query_constructor.isInclusive (pools_per_thread remote_count thread_count)
        (remainder remote_count thread_count) (q.cluster.getShardsInfo.take k)).stream_count =
      local_stream_count (q.cluster.getShardsInfo.take k) +
        (remoteCalls (q.pass2 ext (pools_per_thread remote_count thread_count)
          (remainder remote_count thread_count) (Pass2State.initial qc [Call.setupBarrier n])
          (q.cluster.getShardsInfo.take k)).calls).length ∧
    (pass1 q.query_constructor.isInclusive (pools_per_thread remote_count thread_count)
        (remainder remote_count thread_count) (q.cluster.getShardsInfo.take k)).current_thread =
      (q.pass2 ext (pools_per_thread remote_count thread_count)
        (remainder remote_count thread_count) (Pass2State.initial qc [Call.setupBarrier n])
        (q.cluster.getShardsInfo.take k)).current_thread ∧
    (pass1 q.query_constructor.isInclusive (pools_per_thread remote_count thread_count)
        (remainder remote_count thread_count) (q.cluster.getShardsInfo.take k)).pool_count =
      poolsSize (q.pass2 ext (pools_per_thread remote_count thread_count)
        (remainder remote_count thread_count) (Pass2State.initial qc [Call.setupBarrier n])
        (q.cluster.getShardsInfo.take k)).pools ∧
    (pass1 q.query_constructor.isInclusive (pools_per_thread remote_count thread_count)
        (remainder remote_count thread_count) (q.cluster.getShardsInfo.take k)).do_init =
      (q.pass2 ext (pools_per_thread remote_count thread_count)
        (remainder remote_count thread_count) (Pass2State.initial qc [Call.setupBarrier n])
        (q.cluster.getShardsInfo.take k)).do_init := by
  obtain ⟨h1, h2, h3, _, h5⟩ := pass1_agrees_pass2 ext q
    (pools_per_thread remote_count thread_count) (remainder remote_count thread_count) qc n
    (q.cluster.getShardsInfo.take k)
  exact ⟨h5, h1, h3, h2⟩

/-- C3: when the remote count equals the number of remote-eligible shards (which always holds
in inclusive mode), the returned streams are the streams returned by the calls in call order,
the pool lists of the `createRemote` calls concatenated in call order are exactly the pools of
the remote-eligible shards in shard order (every shard slot in exactly one call, none in two),
and at the end no accumulator is left unfinalized (`do_init` is true). -/
theorem C3_pools_partitioned {σ β : Type} (ext : Externals) (q : Query σ β) (qc : σ)
    (h : q.query_constructor.isInclusive = true ∨ q.Consistent) :
    q.execute ext qc = (q.executeState ext qc).calls.filterMap Call.returned ∧
    ((remoteCalls (q.executeState ext qc).calls).map RemoteCall.pools).flatten =
      remotePools q.query_constructor.isInclusive q.cluster.getShardsInfo ∧
    (q.executeState ext qc).do_init = true ∧
    (q.executeState ext qc).proj.acc = [] := by
  have hcons : q.Consistent := by
    rcases h with h | h
    · exact consistent_of_inclusive q h
    · exact h
  obtain ⟨_, h2, h3⟩ := executeState_buckets ext q qc hcons
  refine ⟨execute_eq_returned ext q qc, ?_, h2, ?_⟩
  · rw [h3, ofBucket_pools_map]
    apply splitBuckets_flatten
    rw [remotePools_length, ← hcons]
    by_cases htc : q.thread_count = 0
    · rw [(thread_count_eq_zero_iff _ _ _).mp htc]
      exact Nat.zero_le _
    · rw [bucket_sizes_sum _ _ (Nat.pos_of_ne_zero htc)]
  · simp [RemoteState.acc, Pass2State.proj, h2]

/-- C3 at five remote-only shards in exclusive mode with a reported remote count of 5. -/
theorem C3_witness :
    ((plainConstructor false).isInclusive = true ∨ fiveShardQuery.Consistent) ∧
    (fiveShardQuery.execute sampleExternals () =
        (fiveShardQuery.executeState sampleExternals ()).calls.filterMap Call.returned ∧
      ((remoteCalls (fiveShardQuery.executeState sampleExternals ()).calls).map
          RemoteCall.pools).flatten = [10, 11, 12, 13, 14] ∧
      (fiveShardQuery.executeState sampleExternals ()).do_init = true ∧
      (fiveShardQuery.executeState sampleExternals ()).proj.acc = []) :=
  ⟨Or.inr (by unfold Query.Consistent; decide),
    C3_pools_partitioned sampleExternals fiveShardQuery ()
      (Or.inr (by unfold Query.Consistent; decide))⟩

/-- C4: when the remote count equals the number of remote-eligible shards and `thread_count` is
positive, `execute` makes `thread_count` `createRemote` calls and the `k`-th of them (from 0)
carries `remote_count / thread_count + 1` pools if `k < remote_count % thread_count` and
`remote_count / thread_count` pools otherwise; five remote-eligible shards in exclusive mode
with multiplexing and max-threads 2 give two multiplexed streams, over the first three pools
and over the last two. -/
theorem C4_bucket_sizes_realised {σ β : Type} (ext : Externals) (q : Query σ β) (qc : σ)
    (h : q.Consistent) (htc : 0 < q.thread_count) :
    (remoteCalls (q.executeState ext qc).calls).length = q.thread_count ∧
    (∀ k, k < q.thread_count →
      ((remoteCalls (q.executeState ext qc).calls).map (fun c => c.pools.length))[k]? =
        some (if k < q.remote_count % q.thread_count
          then q.remote_count / q.thread_count + 1 else q.remote_count / q.thread_count)) ∧
    remoteCalls (fiveShardQuery.executeState sampleExternals ()).calls =
      [RemoteCall.group (some [10, 11, 12]), RemoteCall.group (some [13, 14])] := by
  obtain ⟨_, _, h3⟩ := executeState_buckets ext q qc h
  have hsum := bucket_sizes_sum q.remote_count q.thread_count htc
  have hlen : (remotePools q.query_constructor.isInclusive q.cluster.getShardsInfo).length =
      q.remote_count := by rw [remotePools_length, ← h]
  have hsizes : (remoteCalls (q.executeState ext qc).calls).map (fun c => c.pools.length) =
      bucket_sizes q.remote_count q.thread_count := by
    rw [h3]
    have : (fun c : RemoteCall => c.pools.length) = List.length ∘ RemoteCall.pools := rfl
    rw [this, ← List.map_map, ofBucket_pools_map]
    exact splitBuckets_lengths _ _ (by rw [hsum, hlen])
  refine ⟨?_, ?_, by decide⟩
  · rw [h3, List.length_map, splitBuckets_length, bucket_sizes_length]
  · intro k hk
    rw [hsizes]
    simp only [bucket_sizes, List.getElem?_map, List.getElem?_range hk, Option.map_some',
      actual_pools_per_thread, pools_per_thread, remainder, if_pos htc]
    split <;> rfl

/-- C4 at five remote-only shards, exclusive mode, multiplexing enabled, max-threads 2: two
remote calls, carrying 3 and 2 pools. -/
theorem C4_witness :
    (fiveShardQuery.Consistent ∧ 0 < fiveShardQuery.thread_count) ∧
    (remoteCalls (fiveShardQuery.executeState sampleExternals ()).calls).length = 2 ∧
    (remoteCalls (fiveShardQuery.executeState sampleExternals ()).calls).map
      (fun c => c.pools.length) = [3, 2] :=
  ⟨⟨by unfold Query.Consistent; decide, by decide⟩,
    (C4_bucket_sizes_realised sampleExternals fiveShardQuery ()
      (by unfold Query.Consistent; decide) (by decide)).1.trans (by decide),
    by decide⟩

/-- C5: when the remote count equals the number of remote-eligible shards, the number of
`createRemote` calls (each of which puts one remote stream into the result) is the thread count
of step 2: `remote_count` without multiplexing, 0 for a remote count of 0, 1 with multiplexing
and a maximum of 0, `min remote_count maximum` otherwise; with multiplexing and a positive
maximum it never exceeds the maximum. -/
theorem C5_remote_stream_count {σ β : Type} (ext : Externals) (q : Query σ β) (qc : σ)
    (h : q.Consistent) :
    q.execute ext qc = (q.executeState ext qc).calls.filterMap Call.returned ∧
    (remoteCalls (q.executeState ext qc).calls).length = q.thread_count ∧
    (q.enable_shard_multiplexing = false →
      (remoteCalls (q.executeState ext qc).calls).length = q.remote_count) ∧
    (q.remote_count = 0 → (remoteCalls (q.executeState ext qc).calls).length = 0) ∧
    (q.enable_shard_multiplexing = true → q.remote_count ≠ 0 →
      q.settings.max_distributed_processing_threads = 0 →
      (remoteCalls (q.executeState ext qc).calls).length = 1) ∧
    (q.enable_shard_multiplexing = true → q.remote_count ≠ 0 →
      q.settings.max_distributed_processing_threads ≠ 0 →
      (remoteCalls (q.executeState ext qc).calls).length =
        min q.remote_count q.settings.max_distributed_processing_threads) ∧
    (q.enable_shard_multiplexing = true → 0 < q.settings.max_distributed_processing_threads →
      (remoteCalls (q.executeState ext qc).calls).length ≤
        q.settings.max_distributed_processing_threads) := by
  obtain ⟨_, _, h3⟩ := executeState_buckets ext q qc h
  have hlen : (remoteCalls (q.executeState ext qc).calls).length = q.thread_count := by
    rw [h3, List.length_map, splitBuckets_length, bucket_sizes_length]
  refine ⟨execute_eq_returned ext q qc, hlen, ?_, ?_, ?_, ?_, ?_⟩
  · intro hm
    rw [hlen]
    simp [Query.thread_count, thread_count, hm]
  · intro hz
    rw [hlen]
    exact (thread_count_eq_zero_iff _ _ _).mpr hz
  · intro hm hz hmx
    rw [hlen]
    simp [Query.thread_count, thread_count, hm, hz, hmx]
  · intro hm hz hmx
    rw [hlen]
    simp [Query.thread_count, thread_count, hm, hz, hmx]
  · intro hm hmx
    rw [hlen]
    simp only [Query.thread_count, thread_count, hm]
    by_cases hz : q.remote_count = 0
    · simp [hz]
    · have hne : q.settings.max_distributed_processing_threads ≠ 0 := by omega
      simp [hz, hne]

/-- C5 at five remote-only shards, exclusive mode, multiplexing enabled, max-threads 2: two
remote calls. -/
theorem C5_witness :
    fiveShardQuery.Consistent ∧
    (remoteCalls (fiveShardQuery.executeState sampleExternals ()).calls).length = 2 :=
  ⟨by unfold Query.Consistent; decide,
    (C5_remote_stream_count sampleExternals fiveShardQuery ()
      (by unfold Query.Consistent; decide)).2.1.trans (by decide)⟩

/-- C6: for every remote count and every thread count that step 2 computes from it, the bucket
target sizes for the thread indices below the thread count differ pairwise by at most 1, sum to
`remote_count`, and are each at least 1. -/
theorem C6_bucket_sizes_even (enable_shard_multiplexing : Bool)
    (remote_count max_distributed_processing_threads : Nat) :
    (∀ t1 t2, t1 < thread_count enable_shard_multiplexing remote_count
          max_distributed_processing_threads →
        t2 < thread_count enable_shard_multiplexing remote_count
          max_distributed_processing_threads →
        actual_pools_per_thread
            (pools_per_thread remote_count (thread_count enable_shard_multiplexing remote_count
              max_distributed_processing_threads))
            (remainder remote_count (thread_count enable_shard_multiplexing remote_count
              max_distributed_processing_threads)) t1 ≤
          actual_pools_per_thread
            (pools_per_thread remote_count (thread_count enable_shard_multiplexing remote_count
              max_distributed_processing_threads))
            (remainder remote_count (thread_count enable_shard_multiplexing remote_count
              max_distributed_processing_threads)) t2 + 1) ∧
    (bucket_sizes remote_count (thread_count enable_shard_multiplexing remote_count
      max_distributed_processing_threads)).sum = remote_count ∧
    (∀ t, t < thread_count enable_shard_multiplexing remote_count
          max_distributed_processing_threads →
        1 ≤ actual_pools_per_thread
          (pools_per_thread remote_count (thread_count enable_shard_multiplexing remote_count
            max_distributed_processing_threads))
          (remainder remote_count (thread_count enable_shard_multiplexing remote_count
            max_distributed_processing_threads)) t) := by
  refine ⟨?_, ?_, ?_⟩
  · intro t1 t2 _ _
    simp only [actual_pools_per_thread]
    split <;> split <;> omega
  · by_cases htc : thread_count enable_shard_multiplexing remote_count
        max_distributed_processing_threads = 0
    · rw [htc, (thread_count_eq_zero_iff _ _ _).mp htc]
      rfl
    · exact bucket_sizes_sum _ _ (Nat.pos_of_ne_zero htc)
  · intro t ht
    exact actual_pools_per_thread_pos _ _ _
      (pools_per_thread_pos _ _ (by omega) (thread_count_le _ _ _))

theorem all_single_of_thread_count_eq (rc tc : Nat) (h : tc = rc) (hpos : 0 < rc) :
    ∀ t, actual_pools_per_thread (pools_per_thread rc tc) (remainder rc tc) t = 1 := by
  intro t
  subst h
  simp [actual_pools_per_thread, pools_per_thread, remainder, hpos, Nat.div_self hpos]

theorem executeState_all_single {σ β : Type} (ext : Externals) (q : Query σ β) (qc : σ)
    (h : q.Consistent) (htc : q.thread_count = q.remote_count) :
    remoteCalls (q.executeState ext qc).calls =
      (remotePools q.query_constructor.isInclusive q.cluster.getShardsInfo).map
        RemoteCall.single := by
  have hproj := executeState_proj_eq ext q qc
  have hem : remoteCalls (q.executeState ext qc).calls = (q.executeState ext qc).proj.emitted :=
    rfl
  rw [hem, hproj]
  by_cases hz : q.remote_count = 0
  · have hlen := remotePools_length q.query_constructor.isInclusive q.cluster.getShardsInfo
    rw [← h, hz] at hlen
    rw [List.length_eq_zero.mp hlen]
    rfl
  · have hall : ∀ t, actual_pools_per_thread q.pools_per_thread q.remainder t = 1 :=
      all_single_of_thread_count_eq q.remote_count q.thread_count htc (Nat.pos_of_ne_zero hz)
    rw [remoteWalk_all_single _ _ hall]
    simp

/-- C7: with multiplexing disabled, whatever the thread maximum, if the remote count equals the
number of remote-eligible shards then the `createRemote` calls of `execute` are exactly one
single-pool call per remote-eligible shard, with that shard's pool, in shard order; no call goes
through the pool-group overload. -/
theorem C7_no_multiplexing_one_stream_per_shard {σ β : Type} (ext : Externals) (q : Query σ β)
    (qc : σ) (hm : q.enable_shard_multiplexing = false) (h : q.Consistent) :
    remoteCalls (q.executeState ext qc).calls =
      (remoteShards q.query_constructor.isInclusive q.cluster.getShardsInfo).map
        (fun shard_info => RemoteCall.single shard_info.pool) ∧
    ∀ c ∈ remoteCalls (q.executeState ext qc).calls, c.isGroup = false := by
  have htc : q.thread_count = q.remote_count := by
    simp [Query.thread_count, thread_count, hm]
  have hall := executeState_all_single ext q qc h htc
  refine ⟨by rw [hall]; simp [remotePools], ?_⟩
  intro c hc
  rw [hall] at hc
  obtain ⟨p, _, hp⟩ := List.mem_map.mp hc
  rw [← hp]
  rfl

/-- C7 at five remote-only shards with multiplexing disabled and max-threads 2. -/
theorem C7_witness :
    ((sampleQuery (plainConstructor false)
        [remoteShard 10, remoteShard 11, remoteShard 12, remoteShard 13, remoteShard 14]
        5 2 false).enable_shard_multiplexing = false ∧
      (sampleQuery (plainConstructor false)
        [remoteShard 10, remoteShard 11, remoteShard 12, remoteShard 13, remoteShard 14]
        5 2 false).Consistent) ∧
    remoteCalls ((sampleQuery (plainConstructor false)
        [remoteShard 10, remoteShard 11, remoteShard 12, remoteShard 13, remoteShard 14]
        5 2 false).executeState sampleExternals ()).calls =
      [RemoteCall.single 10, RemoteCall.single 11, RemoteCall.single 12, RemoteCall.single 13,
        RemoteCall.single 14] :=
  ⟨⟨rfl, by unfold Query.Consistent; decide⟩,
    (C7_no_multiplexing_one_stream_per_shard sampleExternals _ () rfl
      (by unfold Query.Consistent; decide)).1.trans (by decide)⟩

/-- C8 fails as stated: with one remote-eligible shard, multiplexing enabled and a maximum of
0, the only remote stream is created through the single-pool overload, not through the
pool-group overload. -/
theorem C8_counterexample :
    oneShardUnboundedQuery.settings.max_distributed_processing_threads = 0 ∧
    oneShardUnboundedQuery.enable_shard_multiplexing = true ∧
    oneShardUnboundedQuery.remote_count = 1 ∧
    remoteCalls (oneShardUnboundedQuery.executeState sampleExternals ()).calls =
      [RemoteCall.single 10] ∧
    ¬ ∃ c ∈ remoteCalls (oneShardUnboundedQuery.executeState sampleExternals ()).calls,
      c.isGroup = true := by
  decide

/-- C8, as the code has it: with a maximum of 0, multiplexing enabled and a positive remote
count equal to the number of remote-eligible shards, `execute` makes exactly one `createRemote`
call, which carries the pools of all remote-eligible shards; it goes through the pool-group
overload when the remote count exceeds 1 and through the single-pool overload when the remote
count is 1. -/
theorem C8_unbounded_one_remote_stream {σ β : Type} (ext : Externals) (q : Query σ β) (qc : σ)
    (hmx : q.settings.max_distributed_processing_threads = 0)
    (hm : q.enable_shard_multiplexing = true) (hpos : 0 < q.remote_count) (h : q.Consistent) :
    (∃ c, remoteCalls (q.executeState ext qc).calls = [c] ∧
      c.pools = remotePools q.query_constructor.isInclusive q.cluster.getShardsInfo) ∧
    (1 < q.remote_count → remoteCalls (q.executeState ext qc).calls =
      [RemoteCall.group
        (some (remotePools q.query_constructor.isInclusive q.cluster.getShardsInfo))]) ∧
    (q.remote_count = 1 → ∃ pool,
      remotePools q.query_constructor.isInclusive q.cluster.getShardsInfo = [pool] ∧
      remoteCalls (q.executeState ext qc).calls = [RemoteCall.single pool]) := by
  obtain ⟨_, _, h3⟩ := executeState_buckets ext q qc h
  have hlen : (remotePools q.query_constructor.isInclusive q.cluster.getShardsInfo).length =
      q.remote_count := by rw [remotePools_length, ← h]
  have htc : q.thread_count = 1 := by
    have hne : q.remote_count ≠ 0 := by omega
    simp [Query.thread_count, thread_count, hm, hne, hmx]
  have hsizes : bucket_sizes q.remote_count q.thread_count = [q.remote_count] := by
    rw [htc]
    simp [bucket_sizes, actual_pools_per_thread, pools_per_thread, remainder, List.range_succ,
      Nat.mod_one]
  have hcalls : remoteCalls (q.executeState ext qc).calls =
      [RemoteCall.ofBucket
        (remotePools q.query_constructor.isInclusive q.cluster.getShardsInfo)] := by
    rw [h3, hsizes]
    simp only [splitBuckets, List.map_cons, List.map_nil]
    rw [← hlen, List.take_length]
  refine ⟨⟨_, hcalls, ofBucket_pools _⟩, ?_, ?_⟩
  · intro h1
    rw [hcalls, ofBucket_of_two_le _ (by omega)]
  · intro h1
    rw [h1] at hlen
    match hp : remotePools q.query_constructor.isInclusive q.cluster.getShardsInfo, hlen with
    | [pool], _ => exact ⟨pool, rfl, by rw [hcalls, hp]; rfl⟩

/-- C8 (amended) at three remote-only shards, inclusive mode, multiplexing enabled, maximum
0: one pool-group call over all three pools. -/
theorem C8_witness :
    ((sampleQuery (plainConstructor true) [remoteShard 10, remoteShard 11, remoteShard 12]
        0 0 true).settings.max_distributed_processing_threads = 0 ∧
      (sampleQuery (plainConstructor true) [remoteShard 10, remoteShard 11, remoteShard 12]
        0 0 true).enable_shard_multiplexing = true ∧
      0 < (sampleQuery (plainConstructor true) [remoteShard 10, remoteShard 11, remoteShard 12]
        0 0 true).remote_count ∧
      (sampleQuery (plainConstructor true) [remoteShard 10, remoteShard 11, remoteShard 12]
        0 0 true).Consistent) ∧
    remoteCalls ((sampleQuery (plainConstructor true)
        [remoteShard 10, remoteShard 11, remoteShard 12] 0 0 true).executeState
        sampleExternals ()).calls = [RemoteCall.group (some [10, 11, 12])] :=
  ⟨⟨rfl, rfl, by decide, by unfold Query.Consistent; decide⟩,
    ((C8_unbounded_one_remote_stream sampleExternals _ () rfl rfl (by decide)
      (by unfold Query.Consistent; decide)).2.1 (by decide)).trans (by decide)⟩

/-- C9: if `remote_count` is 0 (in either selection mode, whatever the shards look like),
`execute` makes no `createRemote` call and its one `setupBarrier` call receives the local stream
count, the sum of `local_addresses.size()` over the shards whose `isLocal()` is true. -/
theorem C9_no_remote_when_remote_count_zero {σ β : Type} (ext : Externals) (q : Query σ β)
    (qc : σ) (h : q.remote_count = 0) :
    remoteCalls (q.executeState ext qc).calls = [] ∧
    q.stream_count = local_stream_count q.cluster.getShardsInfo ∧
    (q.executeState ext qc).calls.filterMap Call.barrierArg =
      [local_stream_count q.cluster.getShardsInfo] := by
  have htc : q.thread_count = 0 := (thread_count_eq_zero_iff _ _ _).mpr h
  have hppt : q.pools_per_thread = 0 := by
    simp [Query.pools_per_thread, pools_per_thread, htc]
  have hrem : q.remainder = 0 := by
    simp [Query.remainder, remainder, htc]
  have hnone : remoteCalls (q.executeState ext qc).calls = [] := by
    have hem : remoteCalls (q.executeState ext qc).calls =
        (q.executeState ext qc).proj.emitted := rfl
    rw [hem, executeState_proj_eq, hppt, hrem, remoteWalk_zero_emitted]
  have hsc : q.stream_count = local_stream_count q.cluster.getShardsInfo := by
    rw [stream_count_eq ext q qc, hnone]
    rfl
  refine ⟨hnone, hsc, ?_⟩
  rw [executeState_barrier, hsc]

/-- C9 in exclusive mode with a reported remote count of 0, one local shard with two addresses
and one shard that is not local: no remote call, barrier sized to 2. -/
theorem C9_witness :
    (sampleQuery (plainConstructor false) [mixedShard [1, 2] 10, remoteShard 11]
        0 3 true).remote_count = 0 ∧
    remoteCalls ((sampleQuery (plainConstructor false) [mixedShard [1, 2] 10, remoteShard 11]
        0 3 true).executeState sampleExternals ()).calls = [] ∧
    ((sampleQuery (plainConstructor false) [mixedShard [1, 2] 10, remoteShard 11]
        0 3 true).executeState sampleExternals ()).calls.filterMap Call.barrierArg = [2] :=
  ⟨rfl,
    (C9_no_remote_when_remote_count_zero sampleExternals
      (sampleQuery (plainConstructor false) [mixedShard [1, 2] 10, remoteShard 11] 0 3 true)
      () rfl).1,
    (C9_no_remote_when_remote_count_zero sampleExternals
      (sampleQuery (plainConstructor false) [mixedShard [1, 2] 10, remoteShard 11] 0 3 true)
      () rfl).2.2.trans (by decide)⟩

/-- C10: with multiplexing enabled and a positive thread maximum that is at least the remote
count, the remote count being the number of remote-eligible shards, every bucket has size 1,
the `createRemote` calls are exactly one single-pool call per remote-eligible shard in shard
order, and `setupBarrier` receives the local stream count plus the remote count; three shards
with one local address and one remote pool each, inclusive mode and max-threads 10 give three
local and three single-pool remote streams and a barrier sized to 6. -/
theorem C10_enough_threads_all_singletons {σ β : Type} (ext : Externals) (q : Query σ β)
    (qc : σ) (hm : q.enable_shard_multiplexing = true)
    (hpos : 0 < q.settings.max_distributed_processing_threads)
    (hle : q.remote_count ≤ q.settings.max_distributed_processing_threads)
    (h : q.Consistent) :
    q.thread_count = q.remote_count ∧
    (∀ t, t < q.thread_count →
      actual_pools_per_thread q.pools_per_thread q.remainder t = 1) ∧
    remoteCalls (q.executeState ext qc).calls =
      (remoteShards q.query_constructor.isInclusive q.cluster.getShardsInfo).map
        (fun shard_info => RemoteCall.single shard_info.pool) ∧
    (q.executeState ext qc).calls.filterMap Call.barrierArg =
      [local_stream_count q.cluster.getShardsInfo + q.remote_count] ∧
    ((threeShardQuery.executeState sampleExternals ()).calls.filterMap Call.barrierArg = [6] ∧
      remoteCalls (threeShardQuery.executeState sampleExternals ()).calls =
        [RemoteCall.single 10, RemoteCall.single 11, RemoteCall.single 12] ∧
      (threeShardQuery.executeState sampleExternals ()).calls.countP Call.isLocal = 3 ∧
      threeShardQuery.execute sampleExternals () = [1, 10, 2, 11, 3, 12]) := by
  have htc : q.thread_count = q.remote_count := by
    simp only [Query.thread_count, thread_count, hm]
    by_cases hz : q.remote_count = 0
    · simp [hz]
    · have hne : q.settings.max_distributed_processing_threads ≠ 0 := by omega
      simp [hz, hne, Nat.min_eq_left hle]
  have hall := executeState_all_single ext q qc h htc
  have hcalls : remoteCalls (q.executeState ext qc).calls =
      (remoteShards q.query_constructor.isInclusive q.cluster.getShardsInfo).map
        (fun shard_info => RemoteCall.single shard_info.pool) := by
    rw [hall]; simp [remotePools]
  refine ⟨htc, ?_, hcalls, ?_, by decide⟩
  · intro t ht
    exact all_single_of_thread_count_eq q.remote_count q.thread_count htc (by omega) t
  · rw [executeState_barrier, stream_count_eq ext q qc, hcalls, List.length_map, ← h]

/-- C10 at three shards with one local address and one remote pool each, inclusive mode,
multiplexing enabled, max-threads 10: thread count 3, three single-pool remote calls, barrier
sized to 6. -/
theorem C10_witness :
    (threeShardQuery.enable_shard_multiplexing = true ∧
      0 < threeShardQuery.settings.max_distributed_processing_threads ∧
      threeShardQuery.remote_count ≤ threeShardQuery.settings.max_distributed_processing_threads ∧
      threeShardQuery.Consistent) ∧
    threeShardQuery.thread_count = 3 ∧
    (threeShardQuery.executeState sampleExternals ()).calls.filterMap Call.barrierArg = [6] :=
  ⟨⟨rfl, by decide, by decide, by unfold Query.Consistent; decide⟩,
    (C10_enough_threads_all_singletons sampleExternals threeShardQuery () rfl (by decide)
      (by decide) (by unfold Query.Consistent; decide)).1.trans (by decide),
    (C10_enough_threads_all_singletons sampleExternals threeShardQuery () rfl (by decide)
      (by decide) (by unfold Query.Consistent; decide)).2.2.2.1.trans (by decide)⟩

/-! ## The arguments of the calls of the second loop -/

theorem createLocalStep_issues {σ β : Type} (q : Query σ β) (new_context : Context)
    (st : Pass2State σ β) (address : Address) :
    ∃ ret : Option β,
      (q.createLocalStep new_context st address).calls =
        st.calls ++ [Call.createLocal q.query_ast new_context address ret] ∧
      (q.createLocalStep new_context st address).res = st.res ++ ret.toList := by
  unfold Query.createLocalStep
  simp only
  cases h : (q.query_constructor.createLocal q.query_ast new_context address st.qc).1 with
  | none => exact ⟨none, rfl, by simp⟩
  | some stream => exact ⟨some stream, rfl, by simp⟩

theorem foldl_createLocalStep_issues {σ β : Type} (q : Query σ β) (new_context : Context)
    (addresses : List Address) :
    ∀ st : Pass2State σ β,
      ∃ tail : List (Call β),
        (addresses.foldl (q.createLocalStep new_context) st).calls = st.calls ++ tail ∧
        (addresses.foldl (q.createLocalStep new_context) st).res =
          st.res ++ tail.filterMap Call.returned ∧
        tail.filterMap Call.localAddress = addresses ∧
        ∀ c ∈ tail, ∃ address ret, c = Call.createLocal q.query_ast new_context address ret := by
  induction addresses with
  | nil => intro st; exact ⟨[], by simp, by simp, rfl, by simp⟩
  | cons a as ih =>
    intro st
    obtain ⟨ret, hc1, hc2⟩ := createLocalStep_issues q new_context st a
    obtain ⟨tail, ht1, ht2, ht3, ht4⟩ := ih (q.createLocalStep new_context st a)
    refine ⟨Call.createLocal q.query_ast new_context a ret :: tail, ?_, ?_, ?_, ?_⟩
    · rw [List.foldl_cons, ht1, hc1]; simp
    · rw [List.foldl_cons, ht2, hc2]
      cases ret <;> simp [List.filterMap_cons, Call.returned]
    · simp [List.filterMap_cons, Call.localAddress, ht3]
    · intro d hd
      rcases List.mem_cons.mp hd with h | h
      · exact ⟨a, ret, h⟩
      · exact ht4 d h

theorem localContribution_issues {σ β : Type} (ext : Externals) (q : Query σ β)
    (st : Pass2State σ β) (s : ShardInfo) :
    ∃ tail : List (Call β),
      (q.localContribution ext st s).calls = st.calls ++ tail ∧
      (q.localContribution ext st s).res = st.res ++ tail.filterMap Call.returned ∧
      tail.filterMap Call.localAddress = (if s.isLocal then s.local_addresses else []) ∧
      ∀ c ∈ tail, ∃ address ret,
        c = Call.createLocal q.query_ast (q.context.setSettings (q.new_settings ext))
          address ret := by
  unfold Query.localContribution
  simp only
  by_cases h : s.isLocal = true
  · rw [if_pos h, if_pos h]
    exact foldl_createLocalStep_issues q _ _ st
  · rw [if_neg h, if_neg h]
    exact ⟨[], by simp, by simp, rfl, by simp⟩

theorem remoteContribution_issues {σ β : Type} (ext : Externals) (q : Query σ β)
    (ppt rem : Nat) (st : Pass2State σ β) (s : ShardInfo) :
    ∃ tail : List (Call β),
      (q.remoteContribution ext ppt rem st s).calls = st.calls ++ tail ∧
      (q.remoteContribution ext ppt rem st s).res = st.res ++ tail.filterMap Call.returned ∧
      tail.length ≤ 1 ∧
      ∀ c ∈ tail,
        (∃ pool ret, c = Call.createRemote pool (q.query ext) (q.new_settings ext) q.throttler
          q.context ret) ∨
        (∃ pools ret, c = Call.createRemotePools pools (q.query ext) (q.new_settings ext)
          q.throttler q.context ret) := by
  suffices h : ∀ r, r = q.remoteContribution ext ppt rem st s →
      ∃ tail : List (Call β), r.calls = st.calls ++ tail ∧
        r.res = st.res ++ tail.filterMap Call.returned ∧
        tail.length ≤ 1 ∧
        ∀ c ∈ tail,
          (∃ pool ret, c = Call.createRemote pool (q.query ext) (q.new_settings ext)
            q.throttler q.context ret) ∨
          (∃ pools ret, c = Call.createRemotePools pools (q.query ext) (q.new_settings ext)
            q.throttler q.context ret) from h _ rfl
  intro r hr
  obtain ⟨qc, calls, res, pools, di, ct⟩ := st
  unfold Query.remoteContribution at hr
  simp only at hr
  by_cases hc : (if q.query_constructor.isInclusive = true then s.hasRemoteConnections
      else !s.isLocal) = true
  · rw [if_pos hc] at hr
    by_cases h1 : ppt + (if ct < rem then 1 else 0) = 1
    · rw [if_pos h1] at hr
      subst hr
      exact ⟨[_], rfl, by simp [Call.returned], by simp,
        by intro c hc; rw [List.mem_singleton] at hc; exact Or.inl ⟨_, _, hc⟩⟩
    · rw [if_neg h1] at hr
      cases di with
      | true =>
        simp only [if_true, Option.map_some'] at hr
        by_cases h2 : some ([] ++ [s.pool]).length = some (ppt + if ct < rem then 1 else 0)
        · rw [if_pos h2] at hr
          subst hr
          exact ⟨[_], rfl, by simp [Call.returned], by simp,
            by intro c hc; rw [List.mem_singleton] at hc; exact Or.inr ⟨_, _, hc⟩⟩
        · rw [if_neg h2] at hr
          subst hr
          exact ⟨[], by simp, by simp, by simp, by simp⟩
      | false =>
        simp only [Bool.false_eq_true, if_false] at hr
        by_cases h2 : Option.map List.length (Option.map (fun pools => pools ++ [s.pool]) pools)
            = some (ppt + if ct < rem then 1 else 0)
        · rw [if_pos h2] at hr
          subst hr
          exact ⟨[_], rfl, by simp [Call.returned], by simp,
            by intro c hc; rw [List.mem_singleton] at hc; exact Or.inr ⟨_, _, hc⟩⟩
        · rw [if_neg h2] at hr
          subst hr
          exact ⟨[], by simp, by simp, by simp, by simp⟩
  · rw [if_neg hc] at hr
    subst hr
    exact ⟨[], by simp, by simp, by simp, by simp⟩

theorem pass2_issues {σ β : Type} (ext : Externals) (q : Query σ β) (ppt rem : Nat)
    (shards : List ShardInfo) :
    ∀ st : Pass2State σ β,
      ∃ tail : List (Call β),
        (q.pass2 ext ppt rem st shards).calls = st.calls ++ tail ∧
        (∀ c ∈ tail, q.Issues ext c) ∧
        tail.filterMap Call.localAddress =
          ((shards.filter ShardInfo.isLocal).map ShardInfo.local_addresses).flatten := by
  induction shards with
  | nil => intro st; exact ⟨[], by simp [Query.pass2], by simp, rfl⟩
  | cons s ss ih =>
    intro st
    obtain ⟨tl, l1, _, l3, l4⟩ := localContribution_issues ext q st s
    obtain ⟨tr, r1, _, _, r4⟩ :=
      remoteContribution_issues ext q ppt rem (q.localContribution ext st s) s
    obtain ⟨tail, t1, t2, t3⟩ := ih (q.pass2Step ext ppt rem st s)
    have hstep : q.pass2 ext ppt rem st (s :: ss) =
        q.pass2 ext ppt rem (q.pass2Step ext ppt rem st s) ss := rfl
    have hs : q.pass2Step ext ppt rem st s =
        q.remoteContribution ext ppt rem (q.localContribution ext st s) s := rfl
    have hr0 : tr.filterMap Call.localAddress = [] := by
      apply List.filterMap_eq_nil_iff.mpr
      intro c hc
      rcases r4 c hc with ⟨_, _, h⟩ | ⟨_, _, h⟩ <;> rw [h] <;> rfl
    refine ⟨tl ++ tr ++ tail, ?_, ?_, ?_⟩
    · rw [hstep, t1, hs, r1, l1]; simp
    · intro c hc
      rcases List.mem_append.mp hc with h | h
      · rcases List.mem_append.mp h with h | h
        · exact Or.inl (l4 c h)
        · exact Or.inr (r4 c h)
      · exact t2 c h
    · rw [List.filterMap_append, List.filterMap_append, l3, hr0, t3]
      cases hl : s.isLocal <;> simp [List.filter_cons, hl]

theorem executeState_issues {σ β : Type} (ext : Externals) (q : Query σ β) (qc : σ) :
    ∃ tail : List (Call β),
      (q.executeState ext qc).calls = Call.setupBarrier q.stream_count :: tail ∧
      (∀ c ∈ tail, q.Issues ext c) ∧
      tail.filterMap Call.localAddress =
        ((q.cluster.getShardsInfo.filter ShardInfo.isLocal).map
          ShardInfo.local_addresses).flatten :=
  pass2_issues ext q q.pools_per_thread q.remainder q.cluster.getShardsInfo
    (Pass2State.initial (q.query_constructor.setupBarrier q.stream_count qc)
      [Call.setupBarrier q.stream_count])

/-- C12: the calls `execute` makes on the stream constructor start with `setupBarrier`, its
argument is the `stream_count` the first loop ends with, and every later call is a `createLocal`
or `createRemote` call; so `setupBarrier` occurs exactly once and before all of them. -/
theorem C12_barrier_once_and_first {σ β : Type} (ext : Externals) (q : Query σ β) (qc : σ) :
    ∃ tail : List (Call β),
      (q.executeState ext qc).calls = Call.setupBarrier q.stream_count :: tail ∧
      (∀ c ∈ tail, c.barrierArg = none) ∧
      (∀ c ∈ tail, q.Issues ext c) ∧
      (q.executeState ext qc).calls.filterMap Call.barrierArg = [q.stream_count] ∧
      q.stream_count =
        (pass1 q.query_constructor.isInclusive q.pools_per_thread q.remainder
          q.cluster.getShardsInfo).stream_count := by
  obtain ⟨tail, h1, _, _, h4⟩ := executeState_calls ext q qc
  obtain ⟨tail2, i1, i2, _⟩ := executeState_issues ext q qc
  have heq : tail2 = tail := by
    rw [h1] at i1
    exact (List.cons.inj i1).2.symm
  subst heq
  exact ⟨tail2, h1, h4, i2, executeState_barrier ext q qc, rfl⟩

/-- C13: the remote count `execute` uses equals the number of shards for which the shard walk
makes a remote contribution, namely the shards with `hasRemoteConnections()` in inclusive mode
and the shards that are not local in exclusive mode; in exclusive mode this rests on
`getRemoteShardCount()` returning what the spec says it returns. -/
theorem C13_remote_count_is_eligible_count {σ β : Type} (q : Query σ β)
    (h : q.query_constructor.isInclusive = false →
      q.cluster.getRemoteShardCount = getRemoteShardCount_spec q.cluster.getShardsInfo) :
    q.remote_count =
      (remoteShards q.query_constructor.isInclusive q.cluster.getShardsInfo).length ∧
    (q.query_constructor.isInclusive = true → q.remote_count =
      (q.cluster.getShardsInfo.filter ShardInfo.hasRemoteConnections).length) ∧
    (q.query_constructor.isInclusive = false → q.remote_count =
      (q.cluster.getShardsInfo.filter (fun shard_info => !shard_info.isLocal)).length) := by
  have hincl : q.query_constructor.isInclusive = true → q.remote_count =
      (q.cluster.getShardsInfo.filter ShardInfo.hasRemoteConnections).length := by
    intro hi
    rw [consistent_of_inclusive q hi, hi]
    simp [remoteShards, create_remote_queries]
    rfl
  have hexcl : q.query_constructor.isInclusive = false → q.remote_count =
      (q.cluster.getShardsInfo.filter (fun shard_info => !shard_info.isLocal)).length := by
    intro hi
    have := h hi
    simpa [Query.remote_count, remote_count, hi, getRemoteShardCount_spec] using this
  refine ⟨?_, hincl, hexcl⟩
  cases hi : q.query_constructor.isInclusive with
  | true => exact hi ▸ consistent_of_inclusive q hi
  | false =>
    rw [hexcl hi]
    simp [remoteShards, create_remote_queries]
    rfl

/-- C13 at five shards that are not local, exclusive mode, with a reported count of 5. -/
theorem C13_witness :
    (fiveShardQuery.query_constructor.isInclusive = false →
      fiveShardQuery.cluster.getRemoteShardCount =
        getRemoteShardCount_spec fiveShardQuery.cluster.getShardsInfo) ∧
    fiveShardQuery.remote_count = 5 :=
  ⟨fun _ => by decide,
    (C13_remote_count_is_eligible_count fiveShardQuery (fun _ => by decide)).1.trans
      (by decide)⟩

/-- C17: `execute` works on the copy `new_settings`, which has
`max_concurrent_queries_for_user` 0, the clamped `queue_max_wait_ms` and every other field as
in the caller's `settings`; every `createRemote` call carries that copy and the caller's context
as it was, and every `createLocal` call gets a copy of the caller's context whose settings are
that copy.  The caller's `settings` are only read: `execute` never assigns to them. -/
theorem C17_settings_snapshot {σ β : Type} (ext : Externals) (q : Query σ β) (qc : σ) :
    ((q.new_settings ext).max_concurrent_queries_for_user = 0 ∧
      (q.new_settings ext).queue_max_wait_ms =
        ext.saturate q.settings.queue_max_wait_ms q.settings.limits.max_execution_time ∧
      (q.new_settings ext).max_distributed_processing_threads =
        q.settings.max_distributed_processing_threads ∧
      (q.new_settings ext).limits = q.settings.limits ∧
      (q.new_settings ext).other = q.settings.other) ∧
    (∀ c ∈ (q.executeState ext qc).calls, ∀ settings, c.settingsArg = some settings →
      settings = q.new_settings ext) ∧
    (∀ c ∈ (q.executeState ext qc).calls, c.toRemoteCall.isSome = true →
      c.contextArg = some q.context) ∧
    (∀ c ∈ (q.executeState ext qc).calls, c.isLocal = true →
      c.contextArg = some { settings := q.new_settings ext, other := q.context.other }) := by
  obtain ⟨tail, h1, h2, _⟩ := executeState_issues ext q qc
  refine ⟨⟨rfl, rfl, rfl, rfl, rfl⟩, ?_, ?_, ?_⟩
  · intro c hc settings hs
    rw [h1] at hc
    rcases List.mem_cons.mp hc with h | h
    · rw [h] at hs; simp [Call.settingsArg] at hs
    · rcases h2 c h with ⟨_, _, e⟩ | ⟨_, _, e⟩ | ⟨_, _, e⟩ <;>
        · rw [e] at hs
          simp only [Call.settingsArg, Option.some.injEq, Context.setSettings] at hs
          exact hs.symm
  · intro c hc hr
    rw [h1] at hc
    rcases List.mem_cons.mp hc with h | h
    · rw [h] at hr; simp [Call.toRemoteCall] at hr
    · rcases h2 c h with ⟨_, _, e⟩ | ⟨_, _, e⟩ | ⟨_, _, e⟩
      · rw [e] at hr; simp [Call.toRemoteCall] at hr
      · rw [e]; rfl
      · rw [e]; rfl
  · intro c hc hl
    rw [h1] at hc
    rcases List.mem_cons.mp hc with h | h
    · rw [h] at hl; simp [Call.isLocal] at hl
    · rcases h2 c h with ⟨_, _, e⟩ | ⟨_, _, e⟩ | ⟨_, _, e⟩
      · rw [e]; rfl
      · rw [e] at hl; simp [Call.isLocal] at hl
      · rw [e] at hl; simp [Call.isLocal] at hl

/-- C18: `execute` constructs a throttler if and only if `max_network_bandwidth` or
`max_network_bytes` is non-zero, from these two limits; every `createRemote` call of one
`execute` receives that one throttler handle, which is the empty handle when both limits are
unset. -/
theorem C18_throttler_shared {σ β : Type} (ext : Externals) (q : Query σ β) (qc : σ) :
    (q.throttler.isSome = true ↔
      (q.settings.limits.max_network_bandwidth ≠ 0 ∨ q.settings.limits.max_network_bytes ≠ 0)) ∧
    ((q.settings.limits.max_network_bandwidth ≠ 0 ∨ q.settings.limits.max_network_bytes ≠ 0) →
      q.throttler = some
        { max_speed := q.settings.limits.max_network_bandwidth,
          limit := q.settings.limits.max_network_bytes,
          limit_exceeded_exception_message :=
            "Limit for bytes to send or receive over network exceeded." }) ∧
    (∀ c ∈ (q.executeState ext qc).calls, c.toRemoteCall.isSome = true →
      c.throttlerArg = some q.throttler) ∧
    (q.settings.limits.max_network_bandwidth = 0 → q.settings.limits.max_network_bytes = 0 →
      ∀ c ∈ (q.executeState ext qc).calls, c.toRemoteCall.isSome = true →
        c.throttlerArg = some none) := by
  obtain ⟨tail, h1, h2, _⟩ := executeState_issues ext q qc
  have hall : ∀ c ∈ (q.executeState ext qc).calls, c.toRemoteCall.isSome = true →
      c.throttlerArg = some q.throttler := by
    intro c hc hr
    rw [h1] at hc
    rcases List.mem_cons.mp hc with h | h
    · rw [h] at hr; simp [Call.toRemoteCall] at hr
    · rcases h2 c h with ⟨_, _, e⟩ | ⟨_, _, e⟩ | ⟨_, _, e⟩
      · rw [e] at hr; simp [Call.toRemoteCall] at hr
      · rw [e]; rfl
      · rw [e]; rfl
  refine ⟨?_, ?_, hall, ?_⟩
  · unfold Query.throttler
    by_cases h : q.settings.limits.max_network_bandwidth ≠ 0 ∨
        q.settings.limits.max_network_bytes ≠ 0
    · rw [if_pos h]; simp [h]
    · rw [if_neg h]; simp [h]
  · intro h
    unfold Query.throttler
    rw [if_pos h]
  · intro hb hy c hc hr
    rw [hall c hc hr]
    unfold Query.throttler
    rw [if_neg (by simp [hb, hy])]

/-! ## `execute` runs into no fault of its own -/

theorem pools_per_thread_checked_eq (rc tc : Nat) :
    pools_per_thread_checked rc tc = Except.ok (pools_per_thread rc tc) := by
  unfold pools_per_thread_checked pools_per_thread checkedDiv
  by_cases h : tc > 0
  · rw [if_pos h, if_pos h, if_neg (by omega)]
  · rw [if_neg h, if_neg h]

theorem remainder_checked_eq (rc tc : Nat) :
    remainder_checked rc tc = Except.ok (remainder rc tc) := by
  unfold remainder_checked remainder checkedMod
  by_cases h : tc > 0
  · rw [if_pos h, if_pos h, if_neg (by omega)]
  · rw [if_neg h, if_neg h]

theorem remoteContributionChecked_eq {σ β : Type} (ext : Externals) (q : Query σ β)
    (ppt rem : Nat) (st : Pass2State σ β) (s : ShardInfo)
    (hinv : st.do_init = false → st.pools ≠ none) :
    q.remoteContributionChecked ext ppt rem st s =
      Except.ok (q.remoteContribution ext ppt rem st s) := by
  obtain ⟨qc, calls, res, pools, di, ct⟩ := st
  unfold Query.remoteContributionChecked Query.remoteContribution
  simp only
  by_cases hc : (if q.query_constructor.isInclusive = true then s.hasRemoteConnections
      else !s.isLocal) = true
  · rw [if_pos hc, if_pos hc]
    by_cases h1 : ppt + (if ct < rem then 1 else 0) = 1
    · rw [if_pos h1, if_pos h1]
    · rw [if_neg h1, if_neg h1]
      cases di with
      | true =>
        simp only [if_true, derefPools, Option.map_some', Option.some.injEq]
        exact (apply_ite Except.ok _ _ _).symm
      | false =>
        cases pools with
        | none => exact absurd rfl (hinv rfl)
        | some a =>
          simp only [Bool.false_eq_true, if_false, derefPools, Option.map_some',
            Option.some.injEq]
          exact (apply_ite Except.ok _ _ _).symm
  · rw [if_neg hc, if_neg hc]

theorem remoteStep_keeps_pools (ppt rem : Nat) (st : RemoteState) (p : ConnectionPoolPtr)
    (hinv : st.do_init = false → st.pools ≠ none) :
    (remoteStep ppt rem st p).do_init = false → (remoteStep ppt rem st p).pools ≠ none := by
  obtain ⟨ct, di, pools, em⟩ := st
  simp only [remoteStep]
  generalize ppt + (if ct < rem then 1 else 0) = k
  by_cases h1 : k = 1
  · rw [if_pos h1]; exact hinv
  · rw [if_neg h1]
    cases di with
    | true =>
      simp only [if_true, Option.map_some']
      split <;> simp
    | false =>
      cases pools with
      | none => exact absurd rfl (hinv rfl)
      | some a =>
        simp only [Bool.false_eq_true, if_false, Option.map_some']
        split <;> simp

theorem pass2Step_keeps_pools {σ β : Type} (ext : Externals) (q : Query σ β)
    (ppt rem : Nat) (st : Pass2State σ β) (s : ShardInfo)
    (hinv : st.do_init = false → st.pools ≠ none) :
    (q.pass2Step ext ppt rem st s).do_init = false →
      (q.pass2Step ext ppt rem st s).pools ≠ none := by
  have hp := proj_pass2Step ext q ppt rem st s
  have hd : (q.pass2Step ext ppt rem st s).do_init =
      (q.pass2Step ext ppt rem st s).proj.do_init := rfl
  have hq : (q.pass2Step ext ppt rem st s).pools =
      (q.pass2Step ext ppt rem st s).proj.pools := rfl
  rw [hd, hq, hp]
  split
  · exact remoteStep_keeps_pools ppt rem st.proj s.pool hinv
  · exact hinv

theorem pass2Checked_eq {σ β : Type} (ext : Externals) (q : Query σ β) (ppt rem : Nat)
    (shards : List ShardInfo) :
    ∀ st : Pass2State σ β, (st.do_init = false → st.pools ≠ none) →
      q.pass2Checked ext ppt rem st shards = Except.ok (q.pass2 ext ppt rem st shards) := by
  induction shards with
  | nil => intro st _; rfl
  | cons s ss ih =>
    intro st hinv
    have hloc : (q.localContribution ext st s).do_init = false →
        (q.localContribution ext st s).pools ≠ none := by
      have hp := proj_localContribution ext q st s
      have h1 : (q.localContribution ext st s).do_init = st.do_init :=
        congrArg RemoteState.do_init hp
      have h2 : (q.localContribution ext st s).pools = st.pools :=
        congrArg RemoteState.pools hp
      rw [h1, h2]
      exact hinv
    unfold Query.pass2Checked
    rw [remoteContributionChecked_eq ext q ppt rem _ s hloc]
    simp only
    exact ih _ (pass2Step_keeps_pools ext q ppt rem st s hinv)

theorem executeChecked_eq {σ β : Type} (ext : Externals) (q : Query σ β) (qc : σ) :
    q.executeChecked ext qc = Except.ok (q.execute ext qc) := by
  unfold Query.executeChecked
  rw [pools_per_thread_checked_eq, remainder_checked_eq]
  simp only
  rw [pass2Checked_eq ext q _ _ _ _ (by intro h; simp [Pass2State.initial] at h)]
  rfl

/-- C14 fails as stated: with one local shard that has one address and a stream constructor
whose `createLocal` returns a null stream, `setupBarrier` receives 1, no stream is created, and
`execute` returns the empty collection instead of failing. -/
theorem C14_counterexample :
    (decliningQuery.executeState sampleExternals ()).calls.filterMap Call.barrierArg = [1] ∧
    (decliningQuery.execute sampleExternals ()).length = 0 ∧
    decliningQuery.executeChecked sampleExternals () = Except.ok [] := by
  refine ⟨by decide, by decide, ?_⟩
  rw [executeChecked_eq]
  exact congrArg Except.ok (by decide)

/-- C14, as the code has it: `execute` contains no check of the number of streams it created
against the count it passed to `setupBarrier`; it returns the stream collection in every case,
and the count passed to `setupBarrier` exceeds the number of returned streams by the number of
`createLocal` calls that returned a null stream. -/
theorem C14_no_check_of_stream_count {σ β : Type} (ext : Externals) (q : Query σ β) (qc : σ) :
    q.executeChecked ext qc = Except.ok (q.execute ext qc) ∧
    (q.executeState ext qc).calls.filterMap Call.barrierArg = [q.stream_count] ∧
    q.stream_count =
      (q.execute ext qc).length + (q.executeState ext qc).calls.countP Call.isDeclined := by
  have hsc := stream_count_eq ext q qc
  obtain ⟨tail, h1, h2, h3, h4⟩ := executeState_calls ext q qc
  have hbal := count_balance tail h4
  refine ⟨executeChecked_eq ext q qc, executeState_barrier ext q qc, ?_⟩
  rw [hsc, h1, h2]
  have e1 : remoteCalls (Call.setupBarrier q.stream_count :: tail) = remoteCalls tail := by
    simp [remoteCalls, List.filterMap_cons, Call.toRemoteCall]
  have e2 : List.countP Call.isDeclined (Call.setupBarrier q.stream_count :: tail) =
      List.countP Call.isDeclined tail := by
    simp [List.countP_cons, Call.isDeclined]
  rw [e1, e2]
  omega

/-- C15: `execute` raises no error of its own: with a stream constructor whose calls return
normally it returns its stream collection for every shard list, settings, selection mode and
multiplexing flag; the base size and the remainder are computed without a division by zero,
both being 0 when `thread_count` is 0, and `pools` is never dereferenced while null. -/
theorem C15_execute_returns {σ β : Type} (ext : Externals) (q : Query σ β) (qc : σ) :
    q.executeChecked ext qc = Except.ok (q.execute ext qc) ∧
    (∀ remote_count thread_count : Nat,
      pools_per_thread_checked remote_count thread_count =
        Except.ok (pools_per_thread remote_count thread_count) ∧
      remainder_checked remote_count thread_count =
        Except.ok (remainder remote_count thread_count)) ∧
    (∀ remote_count : Nat,
      pools_per_thread_checked remote_count 0 = Except.ok 0 ∧
      remainder_checked remote_count 0 = Except.ok 0) ∧
    (q.thread_count = 0 → q.pools_per_thread = 0 ∧ q.remainder = 0) := by
  refine ⟨executeChecked_eq ext q qc, ?_, ?_, ?_⟩
  · intro rc tc
    exact ⟨pools_per_thread_checked_eq rc tc, remainder_checked_eq rc tc⟩
  · intro rc
    exact ⟨rfl, rfl⟩
  · intro h
    simp [Query.pools_per_thread, Query.remainder, pools_per_thread, remainder, h]

/-! ## Which overload, how many pools -/

theorem remoteStep_emits (ppt rem : Nat) (st : RemoteState) (p : ConnectionPoolPtr) :
    (actual_pools_per_thread ppt rem st.current_thread = 1 ∧
      (remoteStep ppt rem st p).emitted = st.emitted ++ [RemoteCall.single p] ∧
      (remoteStep ppt rem st p).current_thread = st.current_thread + 1) ∨
    (actual_pools_per_thread ppt rem st.current_thread ≠ 1 ∧
      (remoteStep ppt rem st p).emitted = st.emitted ∧
      (remoteStep ppt rem st p).current_thread = st.current_thread) ∨
    (actual_pools_per_thread ppt rem st.current_thread ≠ 1 ∧
      ∃ g : ConnectionPools,
        (remoteStep ppt rem st p).emitted = st.emitted ++ [RemoteCall.group (some g)] ∧
        (remoteStep ppt rem st p).pools = some g ∧
        g.length = actual_pools_per_thread ppt rem st.current_thread ∧ 2 ≤ g.length ∧
        (remoteStep ppt rem st p).current_thread = st.current_thread + 1) := by
  obtain ⟨ct, di, pools, em⟩ := st
  simp only [remoteStep, actual_pools_per_thread]
  generalize ppt + (if ct < rem then 1 else 0) = k
  by_cases h1 : k = 1
  · rw [if_pos h1]
    exact Or.inl ⟨h1, rfl, rfl⟩
  · rw [if_neg h1]
    cases di with
    | true =>
      simp only [if_true, Option.map_some', List.nil_append, List.length_singleton,
        Option.some.injEq]
      rw [if_neg (fun h => h1 h.symm)]
      exact Or.inr (Or.inl ⟨h1, rfl, rfl⟩)
    | false =>
      cases pools with
      | none =>
        simp only [Bool.false_eq_true, if_false, Option.map_none']
        rw [if_neg (by simp)]
        exact Or.inr (Or.inl ⟨h1, rfl, rfl⟩)
      | some a =>
        simp only [Bool.false_eq_true, if_false, Option.map_some', Option.some.injEq]
        by_cases h2 : (a ++ [p]).length = k
        · rw [if_pos h2]
          refine Or.inr (Or.inr ⟨h1, a ++ [p], rfl, rfl, h2, ?_, rfl⟩)
          have : 1 ≤ (a ++ [p]).length := by simp
          omega
        · rw [if_neg h2]
          exact Or.inr (Or.inl ⟨h1, rfl, rfl⟩)

theorem remoteWalk_sizes (ppt rem : Nat) (ps : ConnectionPools) :
    ∀ st : RemoteState,
      st.current_thread = st.emitted.length →
      st.emitted.map (fun c => (c.isGroup, c.pools.length)) =
        (List.range st.emitted.length).map
          (fun k => (decide (actual_pools_per_thread ppt rem k ≠ 1),
            actual_pools_per_thread ppt rem k)) →
      (∀ c ∈ st.emitted, c.isGroup = true → ∃ g, c = RemoteCall.group (some g) ∧ 2 ≤ g.length) →
      (remoteWalk ppt rem st ps).current_thread = (remoteWalk ppt rem st ps).emitted.length ∧
      (remoteWalk ppt rem st ps).emitted.map (fun c => (c.isGroup, c.pools.length)) =
        (List.range (remoteWalk ppt rem st ps).emitted.length).map
          (fun k => (decide (actual_pools_per_thread ppt rem k ≠ 1),
            actual_pools_per_thread ppt rem k)) ∧
      (∀ c ∈ (remoteWalk ppt rem st ps).emitted, c.isGroup = true →
        ∃ g, c = RemoteCall.group (some g) ∧ 2 ≤ g.length) := by
  induction ps with
  | nil => intro st h1 h2 h3; exact ⟨h1, h2, h3⟩
  | cons p ps ih =>
    intro st h1 h2 h3
    rw [remoteWalk_cons]
    rcases remoteStep_emits ppt rem st p with ⟨ht, he, hc⟩ | ⟨_, he, hc⟩ | ⟨ht, g, he, _, hg, hg2, hc⟩
    · apply ih
      · rw [hc, he, h1]; simp
      · rw [he, List.map_append, h2, List.length_append, List.length_singleton,
          List.range_succ, List.map_append, ← h1]
        simp [RemoteCall.isGroup, RemoteCall.pools, ht]
      · intro c hcm hgc
        rw [he] at hcm
        rcases List.mem_append.mp hcm with h | h
        · exact h3 c h hgc
        · rw [List.mem_singleton] at h
          rw [h] at hgc
          simp [RemoteCall.isGroup] at hgc
    · apply ih
      · rw [hc, he, h1]
      · rw [he]; exact h2
      · rw [he]; exact h3
    · apply ih
      · rw [hc, he, h1]; simp
      · rw [he, List.map_append, h2, List.length_append, List.length_singleton,
          List.range_succ, List.map_append, ← h1]
        simp [RemoteCall.isGroup, RemoteCall.pools, ht, hg]
      · intro c hcm hgc
        rw [he] at hcm
        rcases List.mem_append.mp hcm with h | h
        · exact h3 c h hgc
        · rw [List.mem_singleton] at h
          exact ⟨g, h, hg2⟩

/-- C19: in every run of the second loop, the `k`-th `createRemote` call (from 0) goes through
the single-pool overload exactly when the bucket target size at thread index `k` is 1 and
carries exactly that target size of pools; a call through the pool-group overload carries a
non-null group of at least 2 pools; the thread index at the end is the number of `createRemote`
calls made.  For one remote-eligible shard: with a target size of 1 its pool goes to a
single-pool call; otherwise either no call is made, or the accumulator, which has reached the
target size, goes to a pool-group call; the thread index goes up by one with each call. -/
theorem C19_overload_by_target_size {σ β : Type} (ext : Externals) (q : Query σ β)
    (pools_per_thread remainder : Nat) (qc : σ) (n : Nat) (shards : List ShardInfo) :
    ((q.pass2 ext pools_per_thread remainder (Pass2State.initial qc [Call.setupBarrier n])
        shards).current_thread =
      (remoteCalls (q.pass2 ext pools_per_thread remainder
        (Pass2State.initial qc [Call.setupBarrier n]) shards).calls).length ∧
    (remoteCalls (q.pass2 ext pools_per_thread remainder
        (Pass2State.initial qc [Call.setupBarrier n]) shards).calls).map
        (fun c => (c.isGroup, c.pools.length)) =
      (List.range (remoteCalls (q.pass2 ext pools_per_thread remainder
        (Pass2State.initial qc [Call.setupBarrier n]) shards).calls).length).map
        (fun k => (decide (actual_pools_per_thread pools_per_thread remainder k ≠ 1),
          actual_pools_per_thread pools_per_thread remainder k)) ∧
    (∀ c ∈ remoteCalls (q.pass2 ext pools_per_thread remainder
        (Pass2State.initial qc [Call.setupBarrier n]) shards).calls,
      c.isGroup = true → ∃ g, c = RemoteCall.group (some g) ∧ 2 ≤ g.length)) ∧
    (∀ (st : Pass2State σ β) (shard_info : ShardInfo),
      create_remote_queries q.query_constructor.isInclusive shard_info = true →
      (actual_pools_per_thread pools_per_thread remainder st.current_thread = 1 ∧
        remoteCalls (q.remoteContribution ext pools_per_thread remainder st shard_info).calls =
          remoteCalls st.calls ++ [RemoteCall.single shard_info.pool] ∧
        (q.remoteContribution ext pools_per_thread remainder st shard_info).current_thread =
          st.current_thread + 1) ∨
      (actual_pools_per_thread pools_per_thread remainder st.current_thread ≠ 1 ∧
        remoteCalls (q.remoteContribution ext pools_per_thread remainder st shard_info).calls =
          remoteCalls st.calls ∧
        (q.remoteContribution ext pools_per_thread remainder st shard_info).current_thread =
          st.current_thread) ∨
      (actual_pools_per_thread pools_per_thread remainder st.current_thread ≠ 1 ∧
        ∃ g : ConnectionPools,
          remoteCalls (q.remoteContribution ext pools_per_thread remainder st shard_info).calls =
            remoteCalls st.calls ++ [RemoteCall.group (some g)] ∧
          (q.remoteContribution ext pools_per_thread remainder st shard_info).pools = some g ∧
          g.length = actual_pools_per_thread pools_per_thread remainder st.current_thread ∧
          2 ≤ g.length ∧
          (q.remoteContribution ext pools_per_thread remainder st shard_info).current_thread =
            st.current_thread + 1)) := by
  constructor
  · have hp := proj_pass2 ext q pools_per_thread remainder shards
      (Pass2State.initial qc [Call.setupBarrier n])
    have hw := remoteWalk_sizes pools_per_thread remainder
      (remotePools q.query_constructor.isInclusive shards)
      (Pass2State.initial qc [(Call.setupBarrier n : Call β)]).proj rfl rfl
      (by intro c hc; simp [Pass2State.initial, Pass2State.proj, remoteCalls,
            Call.toRemoteCall] at hc)
    rw [← hp] at hw
    exact hw
  · intro st s hs
    have hp := proj_remoteContribution ext q pools_per_thread remainder st s
    rw [if_pos hs] at hp
    have key := remoteStep_emits pools_per_thread remainder st.proj s.pool
    rw [← hp] at key
    exact key

/-! ## The invariant of the shard walk -/

theorem min_succ_excess (ct rem : Nat) :
    min (ct + 1) rem = min ct rem + (if ct < rem then 1 else 0) := by
  split <;> omega

theorem remoteStep_progress (ppt rem : Nat) (hppt : 1 ≤ ppt) (st : RemoteState)
    (p : ConnectionPoolPtr) (n : Nat)
    (hp : st.do_init = false → st.pools ≠ none)
    (hlt : st.acc.length < actual_pools_per_thread ppt rem st.current_thread)
    (hn : st.current_thread * ppt + min st.current_thread rem + st.acc.length = n) :
    ((remoteStep ppt rem st p).do_init = false → (remoteStep ppt rem st p).pools ≠ none) ∧
    (remoteStep ppt rem st p).acc.length <
      actual_pools_per_thread ppt rem (remoteStep ppt rem st p).current_thread ∧
    (remoteStep ppt rem st p).current_thread * ppt +
      min (remoteStep ppt rem st p).current_thread rem +
      (remoteStep ppt rem st p).acc.length = n + 1 := by
  have hnext : 1 ≤ actual_pools_per_thread ppt rem (st.current_thread + 1) :=
    actual_pools_per_thread_pos ppt rem _ hppt
  have hmul : (st.current_thread + 1) * ppt = st.current_thread * ppt + ppt := Nat.succ_mul _ _
  have hmin := min_succ_excess st.current_thread rem
  have hT : actual_pools_per_thread ppt rem st.current_thread =
      ppt + (if st.current_thread < rem then 1 else 0) := rfl
  by_cases h1 : actual_pools_per_thread ppt rem st.current_thread = 1
  · rw [remoteStep_single ppt rem st p h1]
    have hacc : st.acc.length = 0 := by omega
    refine ⟨hp, ?_, ?_⟩
    · show st.acc.length < actual_pools_per_thread ppt rem (st.current_thread + 1)
      omega
    · show (st.current_thread + 1) * ppt + min (st.current_thread + 1) rem + st.acc.length =
        n + 1
      rw [hmul, hmin]; omega
  · by_cases hk : st.acc.length + 1 = actual_pools_per_thread ppt rem st.current_thread
    · rw [remoteStep_full ppt rem st p h1 hp hk]
      refine ⟨by simp, ?_, ?_⟩
      · show ([] : ConnectionPools).length <
          actual_pools_per_thread ppt rem (st.current_thread + 1)
        simp only [List.length_nil]; omega
      · show (st.current_thread + 1) * ppt + min (st.current_thread + 1) rem +
          ([] : ConnectionPools).length = n + 1
        simp only [List.length_nil]
        rw [hmul, hmin]; omega
    · rw [remoteStep_part ppt rem st p h1 hp hk]
      refine ⟨by simp, ?_, ?_⟩
      · show (st.acc ++ [p]).length < actual_pools_per_thread ppt rem st.current_thread
        rw [List.length_append, List.length_singleton]; omega
      · show st.current_thread * ppt + min st.current_thread rem + (st.acc ++ [p]).length =
          n + 1
        rw [List.length_append, List.length_singleton]; omega

theorem remoteWalk_progress (ppt rem : Nat) (hppt : 1 ≤ ppt) (ps : ConnectionPools) :
    ∀ (st : RemoteState) (n : Nat),
      (st.do_init = false → st.pools ≠ none) →
      st.acc.length < actual_pools_per_thread ppt rem st.current_thread →
      st.current_thread * ppt + min st.current_thread rem + st.acc.length = n →
      ((remoteWalk ppt rem st ps).do_init = false → (remoteWalk ppt rem st ps).pools ≠ none) ∧
      (remoteWalk ppt rem st ps).acc.length <
        actual_pools_per_thread ppt rem (remoteWalk ppt rem st ps).current_thread ∧
      (remoteWalk ppt rem st ps).current_thread * ppt +
        min (remoteWalk ppt rem st ps).current_thread rem +
        (remoteWalk ppt rem st ps).acc.length = n + ps.length := by
  induction ps with
  | nil => intro st n h1 h2 h3; exact ⟨h1, h2, by simpa [remoteWalk_nil] using h3⟩
  | cons p ps ih =>
    intro st n h1 h2 h3
    obtain ⟨s1, s2, s3⟩ := remoteStep_progress ppt rem hppt st p n h1 h2 h3
    obtain ⟨t1, t2, t3⟩ := ih _ _ s1 s2 s3
    rw [remoteWalk_cons]
    refine ⟨t1, t2, ?_⟩
    rw [t3, List.length_cons]; omega

theorem remotePools_take_le (incl : Bool) (shards : List ShardInfo) (k : Nat) :
    (remotePools incl (shards.take k)).length ≤ (remotePools incl shards).length := by
  rw [remotePools_length, remotePools_length]
  exact ((List.take_sublist k shards).filter _).length_le

theorem thread_bound_of_progress (ppt rem tc rc ct a n : Nat) (hppt : 1 ≤ ppt)
    (hrem : rem < tc) (hrc : tc * ppt + rem = rc) (hn : ct * ppt + min ct rem + a = n)
    (hle : n ≤ rc) : ct ≤ tc := by
  by_contra hgt
  have h1 : tc + 1 ≤ ct := by omega
  have h2 : (tc + 1) * ppt ≤ ct * ppt := Nat.mul_le_mul_right ppt h1
  rw [Nat.succ_mul] at h2
  have h3 : min ct rem = rem := by omega
  omega

theorem acc_eq_of_agrees (st : Pass1State) (rs : RemoteState) (L : Nat) (h : st.Agrees rs L) :
    st.acc = rs.acc.length ∧ st.current_thread = rs.current_thread := by
  obtain ⟨h1, h2, h3, h4, _⟩ := h
  refine ⟨?_, h1⟩
  unfold Pass1State.acc RemoteState.acc
  rw [h2, h3]
  cases hd : rs.do_init with
  | true => rfl
  | false =>
    cases hp : rs.pools with
    | none => exact absurd hp (h4 hd)
    | some a => rfl

theorem stateAfter_proj {σ β : Type} (ext : Externals) (q : Query σ β) (qc : σ)
    (shards : List ShardInfo) :
    (q.stateAfter ext qc shards).proj =
      remoteWalk q.pools_per_thread q.remainder
        { current_thread := 0, do_init := true, pools := none, emitted := [] }
        (remotePools q.query_constructor.isInclusive shards) := by
  unfold Query.stateAfter
  rw [proj_pass2]
  rfl

theorem countAfter_agrees {σ β : Type} (ext : Externals) (q : Query σ β) (qc : σ)
    (shards : List ShardInfo) :
    (q.countAfter shards).Agrees (q.stateAfter ext qc shards).proj
      (local_stream_count shards) :=
  pass1_agrees_pass2 ext q q.pools_per_thread q.remainder
    (q.query_constructor.setupBarrier q.stream_count qc) q.stream_count shards

theorem stateAfter_invariant {σ β : Type} (ext : Externals) (q : Query σ β) (qc : σ)
    (h : q.Consistent) (k : Nat) :
    (q.stateAfter ext qc (q.cluster.getShardsInfo.take k)).proj.current_thread ≤
      q.thread_count ∧
    (0 < q.thread_count →
      (q.stateAfter ext qc (q.cluster.getShardsInfo.take k)).proj.acc.length <
        actual_pools_per_thread q.pools_per_thread q.remainder
          (q.stateAfter ext qc (q.cluster.getShardsInfo.take k)).proj.current_thread) ∧
    (q.thread_count = 0 →
      (q.stateAfter ext qc (q.cluster.getShardsInfo.take k)).proj.acc = []) := by
  have hle := remotePools_take_le q.query_constructor.isInclusive q.cluster.getShardsInfo k
  have hlen : (remotePools q.query_constructor.isInclusive q.cluster.getShardsInfo).length =
      q.remote_count := by rw [remotePools_length, ← h]
  rw [hlen] at hle
  rw [stateAfter_proj]
  by_cases htc : q.thread_count = 0
  · have hrc : q.remote_count = 0 := (thread_count_eq_zero_iff _ _ _).mp htc
    rw [hrc] at hle
    have hnil : remotePools q.query_constructor.isInclusive (q.cluster.getShardsInfo.take k)
        = [] := List.length_eq_zero.mp (by omega)
    rw [hnil, remoteWalk_nil, htc]
    exact ⟨Nat.le_refl _, fun h0 => absurd h0 (Nat.lt_irrefl _), fun _ => rfl⟩
  · have hpos : 0 < q.thread_count := Nat.pos_of_ne_zero htc
    have hppt : 1 ≤ q.pools_per_thread :=
      pools_per_thread_pos _ _ hpos (thread_count_le _ _ _)
    have hrem : q.remainder < q.thread_count := by
      simp only [Query.remainder, remainder, if_pos hpos]
      exact Nat.mod_lt _ hpos
    have hrc : q.thread_count * q.pools_per_thread + q.remainder = q.remote_count := by
      simp only [Query.pools_per_thread, Query.remainder, pools_per_thread, remainder,
        if_pos hpos]
      exact Nat.div_add_mod _ _
    obtain ⟨_, w2, w3⟩ := remoteWalk_progress q.pools_per_thread q.remainder hppt
      (remotePools q.query_constructor.isInclusive (q.cluster.getShardsInfo.take k))
      { current_thread := 0, do_init := true, pools := none, emitted := [] } 0
      (by simp)
      (by
        show 0 < actual_pools_per_thread q.pools_per_thread q.remainder 0
        exact actual_pools_per_thread_pos _ _ _ hppt)
      (by simp [RemoteState.acc])
    refine ⟨?_, fun _ => w2, fun h0 => absurd h0 htc⟩
    exact thread_bound_of_progress _ _ _ _ _ _ _ hppt hrem hrc w3 (by omega)

/-- C20 fails as stated: with one shard that is only served locally (inclusive mode), the
remote count 0 equals the number of remote-eligible shards, and after that shard both walks
hold an empty accumulator while the target size at the current thread index is 0, so the
accumulator does not hold strictly fewer pools than the target size. -/
theorem C20_counterexample :
    localOnlyQuery.Consistent ∧
    (localOnlyQuery.stateAfter sampleExternals ()
      (localOnlyQuery.cluster.getShardsInfo.take 1)).proj.acc.length = 0 ∧
    (localOnlyQuery.countAfter (localOnlyQuery.cluster.getShardsInfo.take 1)).acc = 0 ∧
    actual_pools_per_thread localOnlyQuery.pools_per_thread localOnlyQuery.remainder
      (localOnlyQuery.stateAfter sampleExternals ()
        (localOnlyQuery.cluster.getShardsInfo.take 1)).current_thread = 0 ∧
    ¬ ((localOnlyQuery.stateAfter sampleExternals ()
        (localOnlyQuery.cluster.getShardsInfo.take 1)).proj.acc.length <
      actual_pools_per_thread localOnlyQuery.pools_per_thread localOnlyQuery.remainder
        (localOnlyQuery.stateAfter sampleExternals ()
          (localOnlyQuery.cluster.getShardsInfo.take 1)).current_thread) ∧
    ¬ ((localOnlyQuery.countAfter (localOnlyQuery.cluster.getShardsInfo.take 1)).acc <
      actual_pools_per_thread localOnlyQuery.pools_per_thread localOnlyQuery.remainder
        (localOnlyQuery.countAfter
          (localOnlyQuery.cluster.getShardsInfo.take 1)).current_thread) := by
  refine ⟨by unfold Query.Consistent; decide, ?_, ?_, ?_, ?_, ?_⟩ <;> decide

/-- C20, as the code has it: when the remote count equals the number of remote-eligible
shards, after every number `k` of shards both walks have `current_thread <= thread_count`; when
`thread_count` is positive the accumulator holds strictly fewer pools than the target size at
the current thread index, and when `thread_count` is 0 the accumulator is empty; it is empty
whenever that target size is 1; at the end of the walk `current_thread == thread_count` and the
accumulator is empty.  The accumulator is what has been collected since the last hand-over:
nothing while `do_init` is true. -/
theorem C20_walk_invariant {σ β : Type} (ext : Externals) (q : Query σ β) (qc : σ)
    (h : q.Consistent) (k : Nat) :
    ((q.countAfter (q.cluster.getShardsInfo.take k)).current_thread ≤ q.thread_count ∧
      (q.stateAfter ext qc (q.cluster.getShardsInfo.take k)).current_thread ≤
        q.thread_count) ∧
    (0 < q.thread_count →
      (q.countAfter (q.cluster.getShardsInfo.take k)).acc <
        actual_pools_per_thread q.pools_per_thread q.remainder
          (q.countAfter (q.cluster.getShardsInfo.take k)).current_thread ∧
      (q.stateAfter ext qc (q.cluster.getShardsInfo.take k)).proj.acc.length <
        actual_pools_per_thread q.pools_per_thread q.remainder
          (q.stateAfter ext qc (q.cluster.getShardsInfo.take k)).current_thread) ∧
    (q.thread_count = 0 →
      (q.countAfter (q.cluster.getShardsInfo.take k)).acc = 0 ∧
      (q.stateAfter ext qc (q.cluster.getShardsInfo.take k)).proj.acc = []) ∧
    (actual_pools_per_thread q.pools_per_thread q.remainder
        (q.countAfter (q.cluster.getShardsInfo.take k)).current_thread = 1 →
      (q.countAfter (q.cluster.getShardsInfo.take k)).acc = 0) ∧
    (actual_pools_per_thread q.pools_per_thread q.remainder
        (q.stateAfter ext qc (q.cluster.getShardsInfo.take k)).current_thread = 1 →
      (q.stateAfter ext qc (q.cluster.getShardsInfo.take k)).proj.acc = []) ∧
    ((q.countAfter q.cluster.getShardsInfo).current_thread = q.thread_count ∧
      (q.countAfter q.cluster.getShardsInfo).acc = 0 ∧
      (q.executeState ext qc).current_thread = q.thread_count ∧
      (q.executeState ext qc).proj.acc = []) := by
  obtain ⟨i1, i2, i3⟩ := stateAfter_invariant ext q qc h k
  obtain ⟨a1, a2⟩ := acc_eq_of_agrees _ _ _
    (countAfter_agrees ext q qc (q.cluster.getShardsInfo.take k))
  obtain ⟨b1, b2⟩ := acc_eq_of_agrees _ _ _
    (countAfter_agrees ext q qc q.cluster.getShardsInfo)
  obtain ⟨e1, e2, _⟩ := executeState_buckets ext q qc h
  have hfull : q.stateAfter ext qc q.cluster.getShardsInfo = q.executeState ext qc := rfl
  have hct : (q.stateAfter ext qc (q.cluster.getShardsInfo.take k)).current_thread =
      (q.stateAfter ext qc (q.cluster.getShardsInfo.take k)).proj.current_thread := rfl
  have hend : (q.executeState ext qc).proj.acc = [] := by
    simp [RemoteState.acc, Pass2State.proj, e2]
  have hzero : q.thread_count = 0 ∨ 0 < q.thread_count := Nat.eq_zero_or_pos _
  have hone : actual_pools_per_thread q.pools_per_thread q.remainder
      (q.stateAfter ext qc (q.cluster.getShardsInfo.take k)).current_thread = 1 →
      (q.stateAfter ext qc (q.cluster.getShardsInfo.take k)).proj.acc = [] := by
    intro h1
    rcases hzero with h0 | h0
    · exact i3 h0
    · have := i2 h0
      rw [← hct, h1] at this
      exact List.length_eq_zero.mp (by omega)
  refine ⟨⟨?_, ?_⟩, ?_, ?_, ?_, hone, ?_⟩
  · rw [a2]; exact i1
  · rw [hct]; exact i1
  · intro h0
    rw [a1, a2, hct]
    exact ⟨i2 h0, i2 h0⟩
  · intro h0
    rw [a1, i3 h0]
    exact ⟨rfl, rfl⟩
  · intro h1
    rw [a2, ← hct] at h1
    rw [a1, hone h1]
    rfl
  · rw [hfull] at b1 b2
    refine ⟨?_, ?_, e1, hend⟩
    · rw [b2]; exact e1
    · rw [b1, hend]; rfl

/-- C20 (amended) at five remote-only shards, exclusive mode, multiplexing enabled,
max-threads 2, after three shards: the first bucket of 3 has been handed over, the thread index
is 1 and the accumulator is empty. -/
theorem C20_witness :
    fiveShardQuery.Consistent ∧
    (fiveShardQuery.stateAfter sampleExternals ()
      (fiveShardQuery.cluster.getShardsInfo.take 3)).current_thread ≤ 2 ∧
    (fiveShardQuery.executeState sampleExternals ()).current_thread = 2 :=
  ⟨by unfold Query.Consistent; decide,
    (C20_walk_invariant sampleExternals fiveShardQuery ()
      (by unfold Query.Consistent; decide) 3).1.2.trans (by decide),
    (C20_walk_invariant sampleExternals fiveShardQuery ()
      (by unfold Query.Consistent; decide) 3).2.2.2.2.2.2.2.1.trans (by decide)⟩

/-! ## Which pools the remote calls made so far carry -/

theorem remoteStep_slots (ppt rem : Nat) (st : RemoteState) (p : ConnectionPoolPtr)
    (seen : ConnectionPools)
    (hp : st.do_init = false →
      st.pools ≠ none ∧ actual_pools_per_thread ppt rem st.current_thread ≠ 1)
    (hs : (st.emitted.map RemoteCall.pools).flatten ++ st.acc = seen) :
    ((remoteStep ppt rem st p).do_init = false →
      (remoteStep ppt rem st p).pools ≠ none ∧
        actual_pools_per_thread ppt rem (remoteStep ppt rem st p).current_thread ≠ 1) ∧
    ((remoteStep ppt rem st p).emitted.map RemoteCall.pools).flatten ++
      (remoteStep ppt rem st p).acc = seen ++ [p] := by
  by_cases h1 : actual_pools_per_thread ppt rem st.current_thread = 1
  · have hd : st.do_init = true := by
      cases hdi : st.do_init with
      | true => rfl
      | false => exact absurd h1 (hp hdi).2
    have hacc : st.acc = [] := by simp [RemoteState.acc, hd]
    rw [remoteStep_single ppt rem st p h1]
    refine ⟨fun h => by simp [hd] at h, ?_⟩
    show ((st.emitted ++ [RemoteCall.single p]).map RemoteCall.pools).flatten ++ st.acc =
      seen ++ [p]
    rw [hacc] at hs ⊢
    rw [← hs]
    simp [RemoteCall.pools]
  · by_cases hk : st.acc.length + 1 = actual_pools_per_thread ppt rem st.current_thread
    · rw [remoteStep_full ppt rem st p h1 (fun h => (hp h).1) hk]
      refine ⟨fun h => by simp at h, ?_⟩
      show ((st.emitted ++ [RemoteCall.group (some (st.acc ++ [p]))]).map
        RemoteCall.pools).flatten ++ [] = seen ++ [p]
      rw [← hs]
      simp [RemoteCall.pools]
    · rw [remoteStep_part ppt rem st p h1 (fun h => (hp h).1) hk]
      refine ⟨fun _ => ⟨by simp, h1⟩, ?_⟩
      show (st.emitted.map RemoteCall.pools).flatten ++ (st.acc ++ [p]) = seen ++ [p]
      rw [← hs, List.append_assoc]

theorem remoteWalk_slots (ppt rem : Nat) (ps : ConnectionPools) :
    ∀ (st : RemoteState) (seen : ConnectionPools),
      (st.do_init = false →
        st.pools ≠ none ∧ actual_pools_per_thread ppt rem st.current_thread ≠ 1) →
      (st.emitted.map RemoteCall.pools).flatten ++ st.acc = seen →
      ((remoteWalk ppt rem st ps).emitted.map RemoteCall.pools).flatten ++
        (remoteWalk ppt rem st ps).acc = seen ++ ps := by
  induction ps with
  | nil => intro st seen _ hs; simpa [remoteWalk_nil] using hs
  | cons p ps ih =>
    intro st seen hp hs
    obtain ⟨s1, s2⟩ := remoteStep_slots ppt rem st p seen hp hs
    rw [remoteWalk_cons, ih _ _ s1 s2]
    simp

theorem pass2_slots {σ β : Type} (ext : Externals) (q : Query σ β) (ppt rem : Nat) (qc : σ)
    (n : Nat) (shards : List ShardInfo) :
    ((remoteCalls (q.pass2 ext ppt rem (Pass2State.initial qc [Call.setupBarrier n])
        shards).calls).map RemoteCall.pools).flatten ++
      (q.pass2 ext ppt rem (Pass2State.initial qc [Call.setupBarrier n]) shards).proj.acc =
      remotePools q.query_constructor.isInclusive shards := by
  have hw := remoteWalk_slots ppt rem (remotePools q.query_constructor.isInclusive shards)
    (Pass2State.initial qc [(Call.setupBarrier n : Call β)]).proj []
    (fun h => by simp [Pass2State.initial, Pass2State.proj] at h) rfl
  rw [← proj_pass2 ext q ppt rem shards] at hw
  simpa using hw

theorem pass2_append {σ β : Type} (ext : Externals) (q : Query σ β) (ppt rem : Nat)
    (st : Pass2State σ β) (pre post : List ShardInfo) :
    q.pass2 ext ppt rem st (pre ++ post) =
      q.pass2 ext ppt rem (q.pass2 ext ppt rem st pre) post := by
  simp [Query.pass2, List.foldl_append]

theorem remotePools_append (incl : Bool) (pre post : List ShardInfo) :
    remotePools incl (pre ++ post) = remotePools incl pre ++ remotePools incl post := by
  simp [remotePools, remoteShards]

/-- C11: when the walk of `execute` reaches a shard, the calls and streams of the earlier
shards come first, then one `createLocal` call per local address of the shard in address order
with the local streams these calls returned, then at most one `createRemote` call with its
stream, then the calls and streams of the later shards.  The `createRemote` calls made before
the shard is reached carry only pool slots of earlier shards, and over the whole walk the pool
slots are handed over in shard order, so the remote stream that carries the pool of the shard
comes after the shard's local streams. -/
theorem C11_streams_in_shard_order {σ β : Type} (ext : Externals) (q : Query σ β) (qc : σ)
    (pre : List ShardInfo) (shard_info : ShardInfo) (post : List ShardInfo)
    (h : q.cluster.getShardsInfo = pre ++ shard_info :: post) :
    ∃ locals remote rest : List (Call β),
      (q.executeState ext qc).calls =
        (q.stateAfter ext qc pre).calls ++ locals ++ remote ++ rest ∧
      q.execute ext qc =
        (q.stateAfter ext qc pre).res ++ locals.filterMap Call.returned ++
          remote.filterMap Call.returned ++ rest.filterMap Call.returned ∧
      (q.stateAfter ext qc pre).res =
        (q.stateAfter ext qc pre).calls.filterMap Call.returned ∧
      locals.filterMap Call.localAddress =
        (if shard_info.isLocal then shard_info.local_addresses else []) ∧
      (∀ c ∈ locals, c.isLocal = true) ∧
      (∀ c ∈ remote, c.toRemoteCall.isSome = true) ∧
      remote.length ≤ 1 ∧
      (∀ c ∈ rest, c.barrierArg = none) ∧
      ((remoteCalls (q.stateAfter ext qc pre).calls).map RemoteCall.pools).flatten ++
          (q.stateAfter ext qc pre).proj.acc =
        remotePools q.query_constructor.isInclusive pre ∧
      ((remoteCalls (q.executeState ext qc).calls).map RemoteCall.pools).flatten ++
          (q.executeState ext qc).proj.acc =
        remotePools q.query_constructor.isInclusive pre ++
          (if create_remote_queries q.query_constructor.isInclusive shard_info
            then [shard_info.pool] else []) ++
          remotePools q.query_constructor.isInclusive post := by
  obtain ⟨locals, l1, l2, l3, l4⟩ :=
    localContribution_issues ext q (q.stateAfter ext qc pre) shard_info
  obtain ⟨remote, r1, r2, r3, r4⟩ :=
    remoteContribution_issues ext q q.pools_per_thread q.remainder
      (q.localContribution ext (q.stateAfter ext qc pre) shard_info) shard_info
  obtain ⟨rest, t1, t2, _, t4⟩ := pass2_calls ext q q.pools_per_thread q.remainder post
    (q.pass2Step ext q.pools_per_thread q.remainder (q.stateAfter ext qc pre) shard_info)
  obtain ⟨ptail, p1, p2, _, _⟩ := pass2_calls ext q q.pools_per_thread q.remainder pre
    (Pass2State.initial (q.query_constructor.setupBarrier q.stream_count qc)
      [Call.setupBarrier q.stream_count])
  have hsplit : q.executeState ext qc =
      q.pass2 ext q.pools_per_thread q.remainder
        (q.pass2Step ext q.pools_per_thread q.remainder (q.stateAfter ext qc pre) shard_info)
        post := by
    unfold Query.executeState Query.stateAfter
    simp only
    rw [h, pass2_append]
    rfl
  have hs : q.pass2Step ext q.pools_per_thread q.remainder (q.stateAfter ext qc pre)
      shard_info = q.remoteContribution ext q.pools_per_thread q.remainder
        (q.localContribution ext (q.stateAfter ext qc pre) shard_info) shard_info := rfl
  have hslots := pass2_slots ext q q.pools_per_thread q.remainder
    (q.query_constructor.setupBarrier q.stream_count qc) q.stream_count
  refine ⟨locals, remote, rest, ?_, ?_, ?_, l3, ?_, ?_, r3, t4, hslots pre, ?_⟩
  · rw [hsplit, t1, hs, r1, l1]
  · unfold Query.execute
    rw [hsplit, t2, hs, r2, l2]
  · have hres : (q.stateAfter ext qc pre).res = [] ++ ptail.filterMap Call.returned := p2
    have hcalls : (q.stateAfter ext qc pre).calls =
        [Call.setupBarrier q.stream_count] ++ ptail := p1
    rw [hres, hcalls]
    simp [List.filterMap_cons, Call.returned]
  · intro c hc
    obtain ⟨_, _, e⟩ := l4 c hc
    rw [e]; rfl
  · intro c hc
    rcases r4 c hc with ⟨_, _, e⟩ | ⟨_, _, e⟩ <;> rw [e] <;> rfl
  · have hall := hslots q.cluster.getShardsInfo
    have hx : q.pass2 ext q.pools_per_thread q.remainder
        (Pass2State.initial (q.query_constructor.setupBarrier q.stream_count qc)
          [Call.setupBarrier q.stream_count]) q.cluster.getShardsInfo =
        q.executeState ext qc := rfl
    rw [hx] at hall
    rw [hall, h, remotePools_append]
    by_cases hc : create_remote_queries q.query_constructor.isInclusive shard_info = true
    · simp [remotePools, remoteShards, List.filter_cons, hc]
    · simp [remotePools, remoteShards, List.filter_cons, hc]

/-- C11 at three shards with one local address and one remote pool each, reaching the second
shard: its local stream 2 follows the streams 1 and 10 of the first shard and precedes its
remote stream and the streams of the third shard. -/
theorem C11_witness :
    threeShardQuery.cluster.getShardsInfo =
      [mixedShard [1] 10] ++ mixedShard [2] 11 :: [mixedShard [3] 12] ∧
    ∃ locals remote rest : List (Call Nat),
      (threeShardQuery.executeState sampleExternals ()).calls =
        (threeShardQuery.stateAfter sampleExternals () [mixedShard [1] 10]).calls ++
          locals ++ remote ++ rest ∧
      threeShardQuery.execute sampleExternals () =
        [1, 10] ++ locals.filterMap Call.returned ++ remote.filterMap Call.returned ++
          rest.filterMap Call.returned ∧
      locals.filterMap Call.localAddress = [2] ∧
      remote.length ≤ 1 :=
  ⟨rfl,
    match C11_streams_in_shard_order sampleExternals threeShardQuery ()
      [mixedShard [1] 10] (mixedShard [2] 11) [mixedShard [3] 12] rfl with
    | ⟨locals, remote, rest, h1, h2, _, h4, _, _, h7, _⟩ =>
      ⟨locals, remote, rest, h1, h2, h4, h7⟩⟩

theorem remotePools_congr (incl1 incl2 : Bool) (shards1 shards2 : List ShardInfo)
    (h : List.Forall₂
      (fun a b => create_remote_queries incl1 a = create_remote_queries incl2 b ∧
        a.pool = b.pool) shards1 shards2) :
    remotePools incl1 shards1 = remotePools incl2 shards2 := by
  induction h with
  | nil => rfl
  | @cons a b l1 l2 hab _ ih =>
    obtain ⟨he, hp⟩ := hab
    have ih2 : List.map ShardInfo.pool (List.filter (create_remote_queries incl1) l1) =
        List.map ShardInfo.pool (List.filter (create_remote_queries incl2) l2) := ih
    cases hb : create_remote_queries incl2 b with
    | true =>
      have ha : create_remote_queries incl1 a = true := by rw [he, hb]
      simp [remotePools, remoteShards, List.filter_cons, ha, hb, hp, ih2]
    | false =>
      have ha : create_remote_queries incl1 a = false := by rw [he, hb]
      simp [remotePools, remoteShards, List.filter_cons, ha, hb, ih2]

theorem executeState_localAddresses {σ β : Type} (ext : Externals) (q : Query σ β) (qc : σ) :
    (q.executeState ext qc).calls.filterMap Call.localAddress =
      ((q.cluster.getShardsInfo.filter ShardInfo.isLocal).map
        ShardInfo.local_addresses).flatten := by
  obtain ⟨tail, h1, _, h3⟩ := executeState_issues ext q qc
  rw [h1, List.filterMap_cons]
  simpa [Call.localAddress] using h3

/-- C16: two runs of `execute` whose shard lists have the same length and agree shard by shard
on remote eligibility and on the pool, with the same remote count, thread maximum and
multiplexing flag, make the same sequence of `createRemote` calls (same overloads, same pools
and pool groups, same order), whatever the local address lists and the stream constructors are;
and in each run the `createLocal` calls are one per local address of each local shard, in shard
and address order. -/
theorem C16_locals_do_not_influence_grouping {σ₁ β₁ σ₂ β₂ : Type} (ext₁ ext₂ : Externals)
    (q₁ : Query σ₁ β₁) (q₂ : Query σ₂ β₂) (qc₁ : σ₁) (qc₂ : σ₂)
    (hshards : List.Forall₂
      (fun a b =>
        create_remote_queries q₁.query_constructor.isInclusive a =
          create_remote_queries q₂.query_constructor.isInclusive b ∧ a.pool = b.pool)
      q₁.cluster.getShardsInfo q₂.cluster.getShardsInfo)
    (hcount : q₁.remote_count = q₂.remote_count)
    (hmax : q₁.settings.max_distributed_processing_threads =
      q₂.settings.max_distributed_processing_threads)
    (hmux : q₁.enable_shard_multiplexing = q₂.enable_shard_multiplexing) :
    remoteCalls (q₁.executeState ext₁ qc₁).calls = remoteCalls (q₂.executeState ext₂ qc₂).calls ∧
    (q₁.executeState ext₁ qc₁).calls.filterMap Call.localAddress =
      ((q₁.cluster.getShardsInfo.filter ShardInfo.isLocal).map
        ShardInfo.local_addresses).flatten ∧
    (q₂.executeState ext₂ qc₂).calls.filterMap Call.localAddress =
      ((q₂.cluster.getShardsInfo.filter ShardInfo.isLocal).map
        ShardInfo.local_addresses).flatten := by
  refine ⟨?_, executeState_localAddresses ext₁ q₁ qc₁, executeState_localAddresses ext₂ q₂ qc₂⟩
  have e1 : remoteCalls (q₁.executeState ext₁ qc₁).calls =
      (q₁.executeState ext₁ qc₁).proj.emitted := rfl
  have e2 : remoteCalls (q₂.executeState ext₂ qc₂).calls =
      (q₂.executeState ext₂ qc₂).proj.emitted := rfl
  have htc : q₁.thread_count = q₂.thread_count := by
    simp only [Query.thread_count, hcount, hmax, hmux]
  have hppt : q₁.pools_per_thread = q₂.pools_per_thread := by
    simp only [Query.pools_per_thread, hcount, htc]
  have hrem : q₁.remainder = q₂.remainder := by
    simp only [Query.remainder, hcount, htc]
  rw [e1, e2, executeState_proj_eq, executeState_proj_eq, hppt, hrem,
    remotePools_congr _ _ _ _ hshards]

/-- C16 at two clusters of three shards with the same pools and the same eligibility but
different local address lists, inclusive mode, multiplexing enabled, max-threads 2: the same
remote calls, a group of two pools and a single pool. -/
theorem C16_witness :
    (List.Forall₂
        (fun a b =>
          create_remote_queries true a = create_remote_queries true b ∧ a.pool = b.pool)
        [mixedShard [1] 10, mixedShard [2] 11, mixedShard [3] 12]
        [mixedShard [4, 5, 6] 10, remoteShard 11, mixedShard [] 12] ∧
      (sampleQuery (plainConstructor true)
          [mixedShard [1] 10, mixedShard [2] 11, mixedShard [3] 12] 0 2 true).remote_count =
        (sampleQuery (decliningConstructor true)
          [mixedShard [4, 5, 6] 10, remoteShard 11, mixedShard [] 12] 0 2 true).remote_count) ∧
    remoteCalls ((sampleQuery (plainConstructor true)
        [mixedShard [1] 10, mixedShard [2] 11, mixedShard [3] 12] 0 2 true).executeState
        sampleExternals ()).calls =
      remoteCalls ((sampleQuery (decliningConstructor true)
        [mixedShard [4, 5, 6] 10, remoteShard 11, mixedShard [] 12] 0 2 true).executeState
        sampleExternals ()).calls ∧
    remoteCalls ((sampleQuery (plainConstructor true)
        [mixedShard [1] 10, mixedShard [2] 11, mixedShard [3] 12] 0 2 true).executeState
        sampleExternals ()).calls = [RemoteCall.group (some [10, 11]), RemoteCall.single 12] :=
  ⟨⟨List.Forall₂.cons ⟨rfl, rfl⟩ (List.Forall₂.cons ⟨rfl, rfl⟩
      (List.Forall₂.cons ⟨rfl, rfl⟩ List.Forall₂.nil)), by decide⟩,
    (C16_locals_do_not_influence_grouping sampleExternals sampleExternals
      (sampleQuery (plainConstructor true)
        [mixedShard [1] 10, mixedShard [2] 11, mixedShard [3] 12] 0 2 true)
      (sampleQuery (decliningConstructor true)
        [mixedShard [4, 5, 6] 10, remoteShard 11, mixedShard [] 12] 0 2 true) () ()
      (List.Forall₂.cons ⟨rfl, rfl⟩ (List.Forall₂.cons ⟨rfl, rfl⟩
        (List.Forall₂.cons ⟨rfl, rfl⟩ List.Forall₂.nil))) (by decide) rfl rfl).1,
    by decide⟩

/-! ## A reported remote count of 0 -/

theorem remoteWalk_zero_accumulates (ps : ConnectionPools) :
    ∀ st : RemoteState, ps ≠ [] → (st.do_init = false → st.pools ≠ none) →
      remoteWalk 0 0 st ps = { st with do_init := false, pools := some (st.acc ++ ps) } := by
  induction ps with
  | nil => intro st h; exact absurd rfl h
  | cons p ps ih =>
    intro st _ hp
    have h1 : actual_pools_per_thread 0 0 st.current_thread ≠ 1 := by
      simp [actual_pools_per_thread]
    have hk : st.acc.length + 1 ≠ actual_pools_per_thread 0 0 st.current_thread := by
      simp [actual_pools_per_thread]
    rw [remoteWalk_cons, remoteStep_part 0 0 st p h1 hp hk]
    cases ps with
    | nil => rfl
    | cons p2 ps2 =>
      rw [ih _ (by simp) (by simp)]
      show ({ st with do_init := false, pools := some ((st.acc ++ [p]) ++ (p2 :: ps2)) } :
        RemoteState) = _
      rw [List.append_assoc]
      rfl

/-- C21: in exclusive mode the remote count is what `cluster.getRemoteShardCount()` reports;
if it reports 0 then, for every shard list and multiplexing flag, `execute` makes no
`createRemote` call, the first loop counts the local streams only, the thread index stays 0,
and when some shards are not local their pools are all in the accumulator at the end, which is
never handed over (`do_init` is false). -/
theorem C21_reported_zero_creates_no_remote {σ β : Type} (ext : Externals) (q : Query σ β)
    (qc : σ) (hex : q.query_constructor.isInclusive = false)
    (h0 : q.cluster.getRemoteShardCount = 0) :
    q.remote_count = q.cluster.getRemoteShardCount ∧
    remoteCalls (q.executeState ext qc).calls = [] ∧
    q.stream_count = local_stream_count q.cluster.getShardsInfo ∧
    (q.executeState ext qc).calls.filterMap Call.barrierArg =
      [local_stream_count q.cluster.getShardsInfo] ∧
    (q.executeState ext qc).current_thread = 0 ∧
    (q.cluster.getShardsInfo.filter (fun shard_info => !shard_info.isLocal) ≠ [] →
      (q.executeState ext qc).do_init = false ∧
      (q.executeState ext qc).pools =
        some ((q.cluster.getShardsInfo.filter (fun shard_info => !shard_info.isLocal)).map
          ShardInfo.pool)) := by
  have hrc0 : q.remote_count = q.cluster.getRemoteShardCount := by
    simp [Query.remote_count, remote_count, hex]
  have hrc : q.remote_count = 0 := by rw [hrc0, h0]
  have htc : q.thread_count = 0 := (thread_count_eq_zero_iff _ _ _).mpr hrc
  have hppt : q.pools_per_thread = 0 := by
    simp [Query.pools_per_thread, pools_per_thread, htc]
  have hrem : q.remainder = 0 := by
    simp [Query.remainder, remainder, htc]
  have hproj := executeState_proj_eq ext q qc
  rw [hppt, hrem, hex] at hproj
  have hpools : remotePools false q.cluster.getShardsInfo =
      (q.cluster.getShardsInfo.filter (fun shard_info => !shard_info.isLocal)).map
        ShardInfo.pool := by
    simp [remotePools, remoteShards, create_remote_queries]
    rfl
  have hem : remoteCalls (q.executeState ext qc).calls = [] := by
    have e : remoteCalls (q.executeState ext qc).calls =
        (q.executeState ext qc).proj.emitted := rfl
    rw [e, hproj, remoteWalk_zero_emitted]
  have hsc : q.stream_count = local_stream_count q.cluster.getShardsInfo := by
    rw [stream_count_eq ext q qc, hem]
    rfl
  refine ⟨hrc0, hem, hsc, by rw [executeState_barrier, hsc], ?_, ?_⟩
  · have e : (q.executeState ext qc).current_thread =
        (q.executeState ext qc).proj.current_thread := rfl
    rw [e, hproj]
    by_cases hnil : remotePools false q.cluster.getShardsInfo = []
    · rw [hnil]; rfl
    · rw [remoteWalk_zero_accumulates _ _ hnil (by simp)]
  · intro hne
    have hnil : remotePools false q.cluster.getShardsInfo ≠ [] := by
      rw [hpools]
      intro hcontra
      exact hne (List.map_eq_nil_iff.mp hcontra)
    have e1 : (q.executeState ext qc).do_init = (q.executeState ext qc).proj.do_init := rfl
    have e2 : (q.executeState ext qc).pools = (q.executeState ext qc).proj.pools := rfl
    rw [e1, e2, hproj, remoteWalk_zero_accumulates _ _ hnil (by simp), ← hpools]
    exact ⟨rfl, rfl⟩

/-- C21 in exclusive mode with a reported remote count of 0, one local shard with two
addresses and two shards that are not local: no remote call, barrier sized to 2, and the
pools 11 and 12 left in the accumulator. -/
theorem C21_witness :
    ((plainConstructor false).isInclusive = false ∧
      (sampleQuery (plainConstructor false)
        [mixedShard [1, 2] 10, remoteShard 11, remoteShard 12] 0 3 true).cluster.getRemoteShardCount
        = 0) ∧
    remoteCalls ((sampleQuery (plainConstructor false)
        [mixedShard [1, 2] 10, remoteShard 11, remoteShard 12] 0 3 true).executeState
        sampleExternals ()).calls = [] ∧
    ((sampleQuery (plainConstructor false)
        [mixedShard [1, 2] 10, remoteShard 11, remoteShard 12] 0 3 true).executeState
        sampleExternals ()).calls.filterMap Call.barrierArg = [2] ∧
    ((sampleQuery (plainConstructor false)
        [mixedShard [1, 2] 10, remoteShard 11, remoteShard 12] 0 3 true).executeState
        sampleExternals ()).pools = some [11, 12] :=
  ⟨⟨rfl, rfl⟩,
    (C21_reported_zero_creates_no_remote sampleExternals
      (sampleQuery (plainConstructor false)
        [mixedShard [1, 2] 10, remoteShard 11, remoteShard 12] 0 3 true) () rfl rfl).2.1,
    (C21_reported_zero_creates_no_remote sampleExternals
      (sampleQuery (plainConstructor false)
        [mixedShard [1, 2] 10, remoteShard 11, remoteShard 12] 0 3 true) () rfl
      rfl).2.2.2.1.trans (by decide),
    ((C21_reported_zero_creates_no_remote sampleExternals
      (sampleQuery (plainConstructor false)
        [mixedShard [1, 2] 10, remoteShard 11, remoteShard 12] 0 3 true) () rfl
      rfl).2.2.2.2.2 (by decide)).2.trans (by decide)⟩

end ClusterProxy

/-! ## `DatetimePart::convertImpl` -/

theorem DatetimePart.part_quoted (quote : Char) (body : KQLString) (closing trailing : Char)
    (hq : quote = '\"' ∨ quote = '\'') (hlen : body.length + 2 < 2 ^ 64) :
    DatetimePart.part (quote :: (body ++ [closing, trailing])) = Except.ok (toUpper body) := by
  have hup : quote.toUpper = quote := by
    rcases hq with h | h <;> subst h <;> decide
  have hlen2 : (toUpper (body ++ [closing, trailing])).length = body.length + 2 := by
    simp [toUpper]
  have hpos : (body.length + 2 + (2 ^ 64 - 2)) % 2 ^ 64 = body.length := by
    omega
  unfold DatetimePart.part
  simp only [toUpper, List.map_cons, List.head?_cons, hup, List.drop_succ_cons, List.drop_zero]
  rw [if_pos hq]
  simp only [toUpper] at hlen2
  rw [hlen2, hpos, if_neg (by omega)]
  have htake : List.take body.length (List.map Char.toUpper (body ++ [closing, trailing])) =
      List.map Char.toUpper body := by
    rw [List.map_append, List.take_left' (by simp)]
  rw [htake]

theorem DatetimePart.part_unquoted (first : Char) (rest : KQLString)
    (h1 : first.toUpper ≠ '\"') (h2 : first.toUpper ≠ '\'') :
    DatetimePart.part (first :: rest) = Except.ok (toUpper (first :: rest)) := by
  unfold DatetimePart.part
  simp only [toUpper, List.map_cons, List.head?_cons]
  rw [if_neg (by intro h; rcases h with h | h; exact h1 h; exact h2 h)]

/-- C22: when `DatetimePart::convertImpl` has a function name and reaches the comparisons with
the value `part` (the converted part argument, upper-cased and with its quotes stripped), it
maps YEAR to %G, QUARTER to %Q, MONTH to %m, WEEK_OF_YEAR to %V, DAY to %e, DAYOFYEAR to %j,
HOUR to %I, MINUTE to %M and SECOND to %S, sets `out` to `formatDateTime(<date>, '<specifier>' )`
and returns true; for every other value of `part` it throws `SYNTAX_ERROR` and leaves `out`
as it was.  Stripping the quotes means: an argument that starts with a single or double quote
loses its first `char` and its last two (the closing quote and the `char` after it); any other
argument is only upper-cased. -/
theorem C22_datetime_part_specifiers (out fn_name part_argument : KQLString) (comma : Bool)
    (date_argument : KQLString) (hfn : fn_name ≠ []) :
    (∀ part : KQLString, DatetimePart.part part_argument = Except.ok part →
      (∀ key specifier : String,
        (key, specifier) ∈ [("YEAR", "%G"), ("QUARTER", "%Q"), ("MONTH", "%m"),
          ("WEEK_OF_YEAR", "%V"), ("DAY", "%e"), ("DAYOFYEAR", "%j"), ("HOUR", "%I"),
          ("MINUTE", "%M"), ("SECOND", "%S")] →
        part = key.data →
        DatetimePart.convertImpl out fn_name part_argument comma date_argument =
          { completion := Completion.returned true,
            out := "formatDateTime(".data ++ (if comma then date_argument else []) ++
              ", '".data ++ specifier.data ++ "' )".data }) ∧
      (part ∉ ["YEAR".data, "QUARTER".data, "MONTH".data, "WEEK_OF_YEAR".data, "DAY".data,
          "DAYOFYEAR".data, "HOUR".data, "MINUTE".data, "SECOND".data] →
        DatetimePart.convertImpl out fn_name part_argument comma date_argument =
          { completion := Completion.raised (ConvertFailure.SYNTAX_ERROR
              ("Unexpected argument ".data ++ part ++ " for ".data ++ fn_name)),
            out := out })) ∧
    (∀ (quote : Char) (body : KQLString) (closing trailing : Char),
      (quote = '\"' ∨ quote = '\'') → body.length + 2 < 2 ^ 64 →
      DatetimePart.part (quote :: (body ++ [closing, trailing])) = Except.ok (toUpper body)) ∧
    (∀ (first : Char) (rest : KQLString), first.toUpper ≠ '\"' → first.toUpper ≠ '\'' →
      DatetimePart.part (first :: rest) = Except.ok (toUpper (first :: rest))) := by
  refine ⟨?_, DatetimePart.part_quoted, DatetimePart.part_unquoted⟩
  intro part hpart
  constructor
  · intro key specifier hmem hkey
    unfold DatetimePart.convertImpl
    rw [if_neg hfn, hpart]
    simp only [List.mem_cons, Prod.mk.injEq, List.mem_nil_iff, or_false] at hmem
    rcases hmem with ⟨h1, h2⟩ | ⟨h1, h2⟩ | ⟨h1, h2⟩ | ⟨h1, h2⟩ | ⟨h1, h2⟩ | ⟨h1, h2⟩ |
      ⟨h1, h2⟩ | ⟨h1, h2⟩ | ⟨h1, h2⟩ <;> subst h1 h2 hkey <;> rfl
  · intro hnot
    simp only [List.mem_cons, List.mem_nil_iff, or_false, not_or] at hnot
    obtain ⟨n1, n2, n3, n4, n5, n6, n7, n8, n9⟩ := hnot
    have hformat : DatetimePart.format part = none := by
      unfold DatetimePart.format
      rw [if_neg n1, if_neg n2, if_neg n3, if_neg n4, if_neg n5, if_neg n6, if_neg n7,
        if_neg n8, if_neg n9]
    unfold DatetimePart.convertImpl
    rw [if_neg hfn, hpart]
    simp only [hformat]

/-- C22 at the function name `datetime_part`, the converted part argument `'year' ` and the
converted date argument `dt `. -/
theorem C22_witness :
    "datetime_part".data ≠ [] ∧
    DatetimePart.part "'year' ".data = Except.ok "YEAR".data ∧
    DatetimePart.convertImpl [] "datetime_part".data "'year' ".data true "dt ".data =
      { completion := Completion.returned true, out := "formatDateTime(dt , '%G' )".data } :=
  ⟨by decide, rfl,
    ((C22_datetime_part_specifiers [] "datetime_part".data "'year' ".data true "dt ".data
      (by decide)).1 "YEAR".data rfl).1 "YEAR" "%G" (by decide) rfl⟩

/-! ## `MakeDateTime::convertImpl` -/

theorem MakeDateTime.loop_eq (converted : List KQLString) :
    ∀ state : KQLString × Nat,
      converted.foldl
        (fun (state : KQLString × Nat) arg => (state.1 ++ arg ++ ",".data, state.2 + 1)) state =
      (state.1 ++ (converted.map (fun arg => arg ++ ",".data)).flatten,
        state.2 + converted.length) := by
  induction converted with
  | nil => intro state; simp
  | cons arg rest ih =>
    intro state
    rw [List.foldl_cons, ih]
    simp [List.append_assoc]
    omega

theorem MakeDateTime.fill_eq (filler : KQLString) (count start : Nat) :
    ∀ arguments : KQLString,
      (List.range' start count).foldl (fun arguments _ => arguments ++ filler) arguments =
        arguments ++ (List.replicate count filler).flatten := by
  induction count generalizing start with
  | zero => intro arguments; simp
  | succ count ih =>
    intro arguments
    rw [List.range'_succ, List.foldl_cons, ih, List.replicate_succ, List.flatten_cons,
      List.append_assoc]

/-- C23: given a function name and `n` converted arguments, `MakeDateTime::convertImpl` throws
`SYNTAX_ERROR` if and only if `n < 1` or `n > 7`, leaving `out` as it was; otherwise it returns
true and sets `out` to `makeDateTime64(` followed by the `n` arguments each followed by a comma,
then `7 - n` filler entries `0 ,`, then `7,'UTC')`, so that seven entries precede the precision
and the time zone. -/
theorem C23_make_datetime_arguments (out fn_name : KQLString) (converted : List KQLString)
    (hfn : fn_name ≠ []) :
    ((∃ message, (MakeDateTime.convertImpl out fn_name converted).completion =
        Completion.raised (ConvertFailure.SYNTAX_ERROR message)) ↔
      (converted.length < 1 ∨ converted.length > 7)) ∧
    ((converted.length < 1 ∨ converted.length > 7) →
      MakeDateTime.convertImpl out fn_name converted =
        { completion := Completion.raised (ConvertFailure.SYNTAX_ERROR
            ("argument count out of bound in function: ".data ++ fn_name)),
          out := out }) ∧
    (1 ≤ converted.length → converted.length ≤ 7 →
      MakeDateTime.convertImpl out fn_name converted =
        { completion := Completion.returned true,
          out := "makeDateTime64(".data ++
            (converted.map (fun arg => arg ++ ",".data)).flatten ++
            (List.replicate (7 - converted.length) "0 ,".data).flatten ++
            "7,'UTC')".data }) ∧
    (converted.length ≤ 7 →
      (converted.map (fun arg => arg ++ ",".data) ++
        List.replicate (7 - converted.length) "0 ,".data).length = 7) := by
  have hloop := MakeDateTime.loop_eq converted ([], 0)
  simp only [List.nil_append, Nat.zero_add] at hloop
  have hbad : (converted.length < 1 ∨ converted.length > 7) →
      MakeDateTime.convertImpl out fn_name converted =
        { completion := Completion.raised (ConvertFailure.SYNTAX_ERROR
            ("argument count out of bound in function: ".data ++ fn_name)),
          out := out } := by
    intro h
    unfold MakeDateTime.convertImpl
    rw [if_neg hfn]
    simp only [hloop]
    rw [if_pos h]
  have hgood : 1 ≤ converted.length → converted.length ≤ 7 →
      MakeDateTime.convertImpl out fn_name converted =
        { completion := Completion.returned true,
          out := "makeDateTime64(".data ++
            (converted.map (fun arg => arg ++ ",".data)).flatten ++
            (List.replicate (7 - converted.length) "0 ,".data).flatten ++
            "7,'UTC')".data } := by
    intro h1 h7
    unfold MakeDateTime.convertImpl
    rw [if_neg hfn]
    simp only [hloop]
    rw [if_neg (by omega)]
    by_cases hlt : converted.length < 7
    · rw [if_pos hlt, MakeDateTime.fill_eq]
      simp [List.append_assoc]
    · have h7' : converted.length = 7 := by omega
      rw [if_neg hlt, h7']
      simp [List.append_assoc]
  refine ⟨?_, hbad, hgood, ?_⟩
  · constructor
    · rintro ⟨message, hm⟩
      by_contra hnot
      rw [hgood (by omega) (by omega)] at hm
      simp at hm
    · intro h
      exact ⟨_, by rw [hbad h]⟩
  · intro h7
    simp
    omega

/-- C23 at the function name `make_datetime` and three converted arguments. -/
theorem C23_witness :
    "make_datetime".data ≠ [] ∧
    MakeDateTime.convertImpl [] "make_datetime".data ["2017 ".data, "10 ".data, "1 ".data] =
      { completion := Completion.returned true,
        out := "makeDateTime64(2017 ,10 ,1 ,0 ,0 ,0 ,0 ,7,'UTC')".data } :=
  ⟨by decide,
    ((C23_make_datetime_arguments [] "make_datetime".data
      ["2017 ".data, "10 ".data, "1 ".data] (by decide)).2.2.1 (by decide) (by decide)).trans
      (by decide)⟩

end DB
